import Mathlib

/-!
Verification development for the SharePoint → Azure Blob Storage sync job.

Shallow embedding of the reconciliation engine (`src/sync/main.py`), the
blob-store client helpers (`src/sync/blob_client.py`), the permission
encoder (`src/sync/permissions_sync.py`) and the delta change source
(`src/sync/sharepoint_client.py`).

Modelling conventions:
* Python `datetime` values are embedded as `PyDateTime` records; comparison
  between timezone-aware datetimes is chronological, realized here through
  a conversion to microseconds since the Unix epoch (`toEpochMicros`).
  A naive datetime is normalized by the code to UTC before comparison
  (`replace(tzinfo=timezone.utc)`), which the conversion mirrors by
  treating a missing offset as zero.
* Python `dict[str, str]` values are embedded as association lists
  `List (String × String)` looked up with `List.lookup`; `dict` unpacking
  merges are modelled extensionally (the right operand wins on key
  collisions), insertion order of keys is not modelled.
* Fallible I/O collaborators (content download, blob deletion, permission
  fetch) are supplied as explicit oracles in an environment record; a
  `none` / `false` answer stands for the exception the Python call would
  raise at that point.
-/

namespace SPSync

/-! ### Python `datetime` embedding -/

/-- Embedding of a Python `datetime` value.  `tzOffsetMinutes = none`
models a naive datetime (no `tzinfo`). -/
structure PyDateTime where
  year : Int
  month : Int
  day : Int
  hour : Int := 0
  minute : Int := 0
  second : Int := 0
  microsecond : Int := 0
  tzOffsetMinutes : Option Int := none
  deriving Repr, DecidableEq

/-- Days since 1970-01-01 of a proleptic-Gregorian civil date
(Howard Hinnant's `days_from_civil`, the standard algorithm; `/` is
truncating integer division as in C++ and Lean's `Int.div` used by `/`). -/
def daysFromCivil (y m d : Int) : Int :=
  let y' : Int := if m ≤ 2 then y - 1 else y
  let era : Int := (if 0 ≤ y' then y' else y' - 399) / 400
  let yoe : Int := y' - era * 400
  let mp : Int := if 2 < m then m - 3 else m + 9
  let doy : Int := (153 * mp + 2) / 5 + d - 1
  let doe : Int := yoe * 365 + yoe / 4 - yoe / 100 + doy
  era * 146097 + doe - 719468

/-- Microseconds since the Unix epoch of a `PyDateTime`, with a naive
value read as UTC (the code forces `tzinfo=timezone.utc` on naive dates
before comparing). Python compares timezone-aware datetimes by instant,
which coincides with comparing these numbers. -/
def toEpochMicros (dt : PyDateTime) : Int :=
  let off : Int := dt.tzOffsetMinutes.getD 0
  ((daysFromCivil dt.year dt.month dt.day) * 86400
    + dt.hour * 3600 + dt.minute * 60 + dt.second - off * 60) * 1000000
    + dt.microsecond

/-! ### A `datetime.fromisoformat` model

`should_update` parses the stored last-modified string with
`datetime.fromisoformat(stored_date_str.replace('Z', '+00:00'))`, and
returns `True` (update) when parsing raises.  The parser below follows
the accepted grammar for the strings this program stores
(`datetime.isoformat()` output): `YYYY-MM-DD` optionally followed by a
separator and `HH:MM[:SS[.ffffff]]`, optionally followed by a
`±HH:MM[:SS]` offset. -/

/-- Embedding of Python's `str.replace('Z', '+00:00')`: every occurrence
of `'Z'` is replaced.  (Implemented structurally over the character list
— core `String.replace` is defined by well-founded recursion, which the
kernel cannot evaluate.) -/
def replaceZ (s : String) : String :=
  ⟨s.data.flatMap (fun c => if c = 'Z' then "+00:00".data else [c])⟩

/-- Numeric value of a decimal digit character. -/
def digitVal (c : Char) : Nat := c.toNat - 48

/-- Parse exactly `n` decimal digits, returning their value. -/
def parseDigitsAux (acc : Nat) : Nat → List Char → Option (Nat × List Char)
  | 0, cs => some (acc, cs)
  | n + 1, c :: cs =>
      if c.isDigit then parseDigitsAux (acc * 10 + digitVal c) n cs else none
  | _ + 1, [] => none

/-- Parse exactly `n` decimal digits. -/
def parseDigits (n : Nat) (cs : List Char) : Option (Nat × List Char) :=
  parseDigitsAux 0 n cs

/-- Require and consume one specific character. -/
def expectChar (c : Char) : List Char → Option (List Char)
  | d :: cs => if d = c then some cs else none
  | [] => none

/-- Collect a maximal run of leading decimal digits. -/
def takeDigits : List Char → List Char × List Char
  | c :: cs =>
      if c.isDigit then
        let (ds, rest) := takeDigits cs
        (c :: ds, rest)
      else ([], c :: cs)
  | [] => ([], [])

/-- Value of a digit run truncated/right-padded to microsecond precision
(Python truncates fractional seconds beyond six digits). -/
def fractionToMicros (ds : List Char) : Nat :=
  let six := (ds.take 6).foldl (fun acc c => acc * 10 + digitVal c) 0
  six * 10 ^ (6 - min ds.length 6)

/-- Whether a Gregorian year is a leap year. -/
def isLeapYear (y : Int) : Bool :=
  y % 4 = 0 && (y % 100 ≠ 0 || y % 400 = 0)

/-- Number of days in a month (1–12). -/
def daysInMonth (y m : Int) : Int :=
  if m = 2 then (if isLeapYear y then 29 else 28)
  else if m = 4 ∨ m = 6 ∨ m = 9 ∨ m = 11 then 30
  else 31

/-- Parse the optional `±HH:MM` timezone suffix; the input must be fully
consumed.  Returns the offset in minutes.  (An offset with a seconds
component is accepted by `fromisoformat` but never occurs in the strings
this program stores — `datetime.isoformat()` for its UTC datetimes — and
is not modelled.) -/
def parseOffset : List Char → Option (Option Int)
  | [] => some none
  | c :: cs =>
      if c = '+' ∨ c = '-' then do
        let (oh, cs) ← parseDigits 2 cs
        let cs ← expectChar ':' cs
        let (om, cs) ← parseDigits 2 cs
        if cs = [] ∧ oh < 24 ∧ om < 60 then
          let mins : Int := (oh : Int) * 60 + (om : Int)
          some (some (if c = '-' then -mins else mins))
        else none
      else none

/-- Parse the `HH:MM[:SS[.ffffff]]` time part followed by an optional
offset. Returns `(hour, minute, second, microsecond, offset)`. -/
def parseTimePart (cs : List Char) : Option (Nat × Nat × Nat × Nat × Option Int) := do
  let (h, cs) ← parseDigits 2 cs
  let cs ← expectChar ':' cs
  let (mi, cs) ← parseDigits 2 cs
  let (s, micros, cs) ← (match cs with
    | ':' :: rest => do
        let (s, rest) ← parseDigits 2 rest
        match rest with
        | '.' :: frac =>
            let (ds, rest') := takeDigits frac
            if ds = [] then none else some (s, fractionToMicros ds, rest')
        | _ => some (s, 0, rest)
    | _ => some ((0 : Nat), (0 : Nat), cs))
  let off ← parseOffset cs
  if h < 24 ∧ mi < 60 ∧ s < 60 then
    some (h, mi, s, micros, off)
  else none

/-- Embedding of `datetime.fromisoformat` on the string shapes this
program stores (ISO dates produced by `datetime.isoformat()`, after the
code's `replace('Z', '+00:00')`).  `none` models the `ValueError` raised
on a malformed string. -/
def fromisoformat (str : String) : Option PyDateTime := do
  let cs := str.data
  let (y, cs) ← parseDigits 4 cs
  let cs ← expectChar '-' cs
  let (mo, cs) ← parseDigits 2 cs
  let cs ← expectChar '-' cs
  let (d, cs) ← parseDigits 2 cs
  let dateOk := 1 ≤ mo ∧ mo ≤ 12 ∧ 1 ≤ d ∧ (d : Int) ≤ daysInMonth (y : Int) (mo : Int)
  if ¬dateOk then none
  else
    match cs with
    | [] => some { year := y, month := mo, day := d }
    | sep :: rest =>
        if sep = 'T' ∨ sep = ' ' then do
          let (h, mi, s, micros, off) ← parseTimePart rest
          some { year := y, month := mo, day := d, hour := h, minute := mi,
                 second := s, microsecond := micros, tzOffsetMinutes := off }
        else none

/-! ### Blob client data model and `should_update`
(`src/sync/blob_client.py`) -/

/-- Model of `BlobFile` from `blob_client.py`: a blob listed in the container. -/
structure BlobFile where
  name : String
  size : Nat
  last_modified : PyDateTime
  content_hash : Option String := none
  metadata : Option (List (String × String)) := none
  deriving Repr, DecidableEq

/-- Metadata key for the SharePoint item ID. -/
def METADATA_SP_ITEM_ID : String := "sharepoint_item_id"

/-- Metadata key for the SharePoint last-modified date. -/
def METADATA_SP_LAST_MODIFIED : String := "sharepoint_last_modified"

/-- Metadata key for the SharePoint content hash. -/
def METADATA_SP_CONTENT_HASH : String := "sharepoint_content_hash"

/-- Model of `BlobStorageClient.should_update`: decide whether an existing blob is
stale against the SharePoint file's last-modified date and content hash.
Mirrors `blob_client.py` lines 316–351: missing/empty metadata → update;
both hashes present and different → update; otherwise fall through to the
date comparison on the stored ISO string (parse failure → update, absent
key → update); a naive datetime on either side is read as UTC. -/
def should_update (blob : BlobFile) (sp_last_modified : PyDateTime)
    (sp_content_hash : Option String) : Bool :=
  match blob.metadata with
  | none => true
  | some md =>
    if md.isEmpty then true
    else
      let stored_hash := md.lookup METADATA_SP_CONTENT_HASH
      let hashesDiffer :=
        match stored_hash, sp_content_hash with
        | some sh, some ch => sh ≠ "" && ch ≠ "" && sh ≠ ch
        | _, _ => false
      if hashesDiffer then true
      else
        match md.lookup METADATA_SP_LAST_MODIFIED with
        | some stored_date_str =>
            if stored_date_str = "" then true
            else
              match fromisoformat (replaceZ stored_date_str) with
              | some stored_date => toEpochMicros sp_last_modified > toEpochMicros stored_date
              | none => true
        | none => true

/-! ### String helpers shared by several components

All implemented by structural recursion on the character list so that the
kernel can evaluate them inside `decide`/`rfl` proofs. -/

/-- Embedding of Python `str.split(c)` for a one-character separator. -/
def splitOnChar (c : Char) : List Char → List (List Char)
  | [] => [[]]
  | d :: rest =>
      let r := splitOnChar c rest
      if d = c then [] :: r
      else
        match r with
        | s :: ss => (d :: s) :: ss
        | [] => [[d]]

/-- Embedding of Python `sep.join(parts)`. -/
def pyJoin (sep : String) : List String → String
  | [] => ""
  | [x] => x
  | x :: xs => x ++ sep ++ pyJoin sep xs

/-- Zero-pad the decimal rendering of a natural number to width `w`. -/
def padNat (w : Nat) (n : Nat) : String :=
  let s := toString n
  ⟨List.replicate (w - s.length) '0'⟩ ++ s

/-- Embedding of `datetime.isoformat()`:
`YYYY-MM-DDTHH:MM:SS[.ffffff][±HH:MM]` (fraction printed only when the
microsecond field is non-zero, offset only for aware datetimes). -/
def isoformat (dt : PyDateTime) : String :=
  let date := padNat 4 dt.year.toNat ++ "-" ++ padNat 2 dt.month.toNat ++ "-"
      ++ padNat 2 dt.day.toNat
  let time := padNat 2 dt.hour.toNat ++ ":" ++ padNat 2 dt.minute.toNat ++ ":"
      ++ padNat 2 dt.second.toNat
  let frac := if dt.microsecond = 0 then "" else "." ++ padNat 6 dt.microsecond.toNat
  let off :=
    match dt.tzOffsetMinutes with
    | none => ""
    | some o =>
        let sign := if 0 ≤ o then "+" else "-"
        sign ++ padNat 2 (o.natAbs / 60) ++ ":" ++ padNat 2 (o.natAbs % 60)
  date ++ "T" ++ time ++ frac ++ off

/-! ### Permission encoder (`src/sync/permissions_sync.py`) -/

/-- Model of `SharePointPermission`: one access grant parsed from the Graph API. -/
structure SharePointPermission where
  id : String
  roles : List String
  identity_type : String
  display_name : String
  email : Option String := none
  identity_id : Option String := none
  inherited : Bool := false
  deriving Repr, DecidableEq

/-- The dictionary produced by `SharePointPermission.to_dict` (the shape
that `json.dumps` serializes into the raw JSON projection). -/
structure PermDict where
  id : String
  roles : List String
  identity_type : String
  display_name : String
  email : Option String
  identity_id : Option String
  inherited : Bool
  deriving Repr, DecidableEq

/-- Model of `SharePointPermission.to_dict`. -/
def SharePointPermission.to_dict (p : SharePointPermission) : PermDict :=
  { id := p.id, roles := p.roles, identity_type := p.identity_type,
    display_name := p.display_name, email := p.email,
    identity_id := p.identity_id, inherited := p.inherited }

/-- JSON string escaping as performed by `json.dumps` on the characters
appearing in this program's data (quote, backslash, control characters;
`ensure_ascii` escaping of non-ASCII characters is not modelled — no
theorem inspects the serialized text). -/
def jsonEscapeChar (c : Char) : List Char :=
  if c = '"' then ['\\', '"']
  else if c = '\\' then ['\\', '\\']
  else if c = '\n' then ['\\', 'n']
  else if c = '\r' then ['\\', 'r']
  else if c = '\t' then ['\\', 't']
  else if c.toNat < 32 then
    '\\' :: 'u' :: (padNat 4 c.toNat).data
  else [c]

/-- A JSON string literal. -/
def jsonStr (s : String) : String := "\"" ++ ⟨s.data.flatMap jsonEscapeChar⟩ ++ "\""

/-- Either `null` or a JSON string. -/
def jsonOptStr : Option String → String
  | none => "null"
  | some s => jsonStr s

/-- A JSON array of strings. -/
def jsonStrList (l : List String) : String :=
  "[" ++ pyJoin ", " (l.map jsonStr) ++ "]"

/-- Model of `json.dumps` of one `to_dict` dictionary (keys in insertion order,
default `", "`/`": "` separators). -/
def jsonPermDict (d : PermDict) : String :=
  "\x7b\"id\": " ++ jsonStr d.id
    ++ ", \"roles\": " ++ jsonStrList d.roles
    ++ ", \"identity_type\": " ++ jsonStr d.identity_type
    ++ ", \"display_name\": " ++ jsonStr d.display_name
    ++ ", \"email\": " ++ jsonOptStr d.email
    ++ ", \"identity_id\": " ++ jsonOptStr d.identity_id
    ++ ", \"inherited\": " ++ (if d.inherited then "true" else "false")
    ++ "\x7d"

/-- Model of `json.dumps([p.to_dict() for p in permissions])`. -/
def jsonDumpsPermList (ds : List PermDict) : String :=
  "[" ++ pyJoin ", " (ds.map jsonPermDict) ++ "]"

/-- Hexadecimal digit test matching the character class `[0-9a-fA-F]`. -/
def isHexDigitChar (c : Char) : Bool :=
  c.isDigit || ('a' ≤ c && c ≤ 'f') || ('A' ≤ c && c ≤ 'F')

/-- Model of `FilePermissions._is_valid_guid`:
`bool(re.match(r'^[0-9a-fA-F]{8}-…-[0-9a-fA-F]{12}$', value))` after the
falsiness check.  Python's `$` (no `re.MULTILINE`) matches at the end of
the string or just before one newline that ends the string, and none of
the pattern's characters can consume a `'\n'`, so the source accepts
exactly the GUID shape optionally followed by a single final `'\n'`.
The model therefore drops one trailing newline, if present, and then
checks the exact 8-4-4-4-12 hex shape by splitting on `'-'` (a match
forces exactly four dashes in those positions). -/
def is_valid_guid (v : String) : Bool :=
  if v.data = [] then false
  else
    let core :=
      if v.data.getLast? = some '\n' then v.data.dropLast else v.data
    match splitOnChar '-' core with
    | [a, b, c, d, e] =>
        a.length = 8 && b.length = 4 && c.length = 4 && d.length = 4
          && e.length = 12 && (a ++ b ++ c ++ d ++ e).all isHexDigitChar
    | _ => false

/-- Metadata key of the raw JSON projection of all permission entries. -/
def METADATA_PERMISSIONS : String := "sharepoint_permissions"

/-- Metadata key of the synced-at timestamp. -/
def METADATA_PERMISSIONS_SYNCED_AT : String := "permissions_synced_at"

/-- Metadata key of the encoded user-ID list. -/
def METADATA_ACL_USER_IDS : String := "user_ids"

/-- Metadata key of the encoded group-ID list. -/
def METADATA_ACL_GROUP_IDS : String := "group_ids"

/-- The sentinel written when no specific users are encoded
(`PLACEHOLDER_NO_USERS` in `FilePermissions.to_metadata`). -/
def PLACEHOLDER_NO_USERS : String := "00000000-0000-0000-0000-000000000000"

/-- The sentinel written when no specific groups are encoded
(`PLACEHOLDER_NO_GROUPS` in `FilePermissions.to_metadata`). -/
def PLACEHOLDER_NO_GROUPS : String := "00000000-0000-0000-0000-000000000001"

/-- The all-zero GUID (the zero-value the spec calls "no access"). -/
def allZeroGuid : String := "00000000-0000-0000-0000-000000000000"

/-- Model of `FilePermissions`: all permissions of one file. -/
structure FilePermissions where
  file_path : String
  file_id : String
  permissions : List SharePointPermission := []
  synced_at : Option PyDateTime := none
  deriving Repr, DecidableEq

/-- Model of `FilePermissions._extract_user_ids`: identity IDs of the entries of
identity type `"user"` whose ID is present, truthy and a well-formed
GUID, deduplicated.  Python's `list(set(...))` deduplicates in an
unspecified order; the model deduplicates keeping one occurrence of
each ID (`List.dedup`) — every theorem stated about the result is
insensitive to the ordering choice. -/
def FilePermissions.extract_user_ids (fp : FilePermissions) : List String :=
  (fp.permissions.filterMap (fun p =>
    match p.identity_id with
    | some v =>
        if p.identity_type = "user" ∧ v ≠ "" ∧ is_valid_guid v then some v else none
    | none => none)).dedup

/-- Model of `FilePermissions._extract_group_ids`: same for identity type
`"group"`. -/
def FilePermissions.extract_group_ids (fp : FilePermissions) : List String :=
  (fp.permissions.filterMap (fun p =>
    match p.identity_id with
    | some v =>
        if p.identity_type = "group" ∧ v ≠ "" ∧ is_valid_guid v then some v else none
    | none => none)).dedup

/-- The raw JSON projection `[p.to_dict() for p in self.permissions]`
that `to_metadata` serializes into the `sharepoint_permissions` value. -/
def FilePermissions.rawProjection (fp : FilePermissions) : List PermDict :=
  fp.permissions.map SharePointPermission.to_dict

/-- Model of `FilePermissions.to_metadata`: the blob-metadata encoding of a
permission set.  The extra `utcnowStr` argument stands for
`datetime.utcnow().isoformat()`, used only when `synced_at` is absent. -/
def FilePermissions.to_metadata (fp : FilePermissions) (utcnowStr : String) :
    List (String × String) :=
  let permissions_json := jsonDumpsPermList fp.rawProjection
  let user_ids := fp.extract_user_ids
  let group_ids := fp.extract_group_ids
  [ (METADATA_PERMISSIONS, permissions_json),
    (METADATA_PERMISSIONS_SYNCED_AT,
      match fp.synced_at with
      | some d => isoformat d
      | none => utcnowStr),
    (METADATA_ACL_USER_IDS,
      if user_ids.isEmpty then PLACEHOLDER_NO_USERS else pyJoin "|" user_ids),
    (METADATA_ACL_GROUP_IDS,
      if group_ids.isEmpty then PLACEHOLDER_NO_GROUPS else pyJoin "|" group_ids) ]

/-! ### Blob client operations (`src/sync/blob_client.py`) -/

/-- Model of `BlobStorageClient._get_blob_name`: strip leading slashes from the
SharePoint path and prepend the configured blob prefix when non-empty.
`pfx` stands for the client's `blob_prefix` attribute (already
`.strip("/")`-normalized by `__init__`). -/
def get_blob_name (pfx : String) (sharepoint_path : String) : String :=
  let clean_path : String := ⟨sharepoint_path.data.dropWhile (· = '/')⟩
  if pfx ≠ "" then pfx ++ "/" ++ clean_path else clean_path

/-- A raw blob as yielded by the Azure SDK `list_blobs` call, before the
client's directory filtering. -/
structure RawBlob where
  name : String
  size : Nat
  last_modified : PyDateTime
  etag : Option String := none
  metadata : Option (List (String × String)) := none
  deriving Repr, DecidableEq

/-- Last path segment of a blob name (Python `name.split('/')[-1]`;
`split` always yields at least one segment). -/
def lastSegment (name : String) : List Char :=
  (splitOnChar '/' name.data).getLastD []

/-- The directory-skipping filter in `BlobStorageClient.list_blobs`:
a blob is yielded unless its name ends with `'/'`, or it has size 0 and
no `'.'` in its final path segment. -/
def keepBlob (b : RawBlob) : Bool :=
  !(b.name.data.getLast? == some '/')
    && !(b.size == 0 && !((lastSegment b.name).contains '.'))

/-- Model of `BlobStorageClient.list_blobs` on a given raw container listing:
filter out directory-like entries and repackage as `BlobFile` (the
content hash is the service etag). -/
def list_blobs (raw : List RawBlob) : List BlobFile :=
  (raw.filter keepBlob).map (fun b =>
    { name := b.name, size := b.size, last_modified := b.last_modified,
      content_hash := b.etag, metadata := b.metadata })

/-- The fixed list of deprecated metadata key names removed by
`update_blob_metadata` before merging. -/
def deprecated_fields : List String :=
  ["metadata_user_ids", "metadata_group_ids",
   "acl_user_ids_list", "acl_group_ids_list",
   "metadata_acl_user_ids", "metdata_acl_group_ids"]

/-- The `existing_metadata.pop(field, None)` loop of
`update_blob_metadata`: drop every deprecated key. -/
def stripDeprecated (md : List (String × String)) : List (String × String) :=
  md.filter (fun p => !(deprecated_fields.contains p.1))

/-- The metadata value written by `update_blob_metadata` (non-dry-run):
the existing metadata with deprecated keys removed, then the new keys
merged on top.  Python's dict unpacking gives the new mapping priority on
key collisions; the association list realizes the same lookup function
(key insertion order is not modelled). -/
def update_blob_metadata_merge (existing additional : List (String × String)) :
    List (String × String) :=
  additional ++ stripDeprecated existing

/-! ### Change source data model (`src/sync/sharepoint_client.py`) -/

/-- Model of `SharePointFile`: one file descriptor from SharePoint. -/
structure SharePointFile where
  id : String
  name : String
  path : String
  size : Nat
  last_modified : PyDateTime
  download_url : Option String := none
  content_hash : Option String := none
  deriving Repr, DecidableEq

/-- Model of `DeltaChangeType`. -/
inductive DeltaChangeType where
  | CREATED_OR_MODIFIED
  | DELETED
  deriving Repr, DecidableEq

/-- Model of `DeltaChange`: one change from a delta query. -/
structure DeltaChange where
  change_type : DeltaChangeType
  file : Option SharePointFile := none
  item_id : String := ""
  item_name : String := ""
  item_path : String := ""
  is_folder : Bool := false
  deriving Repr, DecidableEq

/-- Model of `DeltaResult`: the changes of one delta query plus the new token. -/
structure DeltaResult where
  changes : List DeltaChange := []
  delta_token : String := ""
  is_initial_sync : Bool := false
  deriving Repr, DecidableEq

/-! ### Run model (`src/sync/main.py`)

The reconciliation engine is embedded as a pure fold over the change /
file sequence.  External collaborators appear as oracles in `SyncEnv`:
a `none` (or `false`) answer models the exception the corresponding
`await` would raise — for content handling the failure point is the
download (the enclosing `try` block), for deletions the `delete_blob`
call and for permissions the `get_file_permissions` call. -/

/-- Model of `SyncStats` plus the sync-mode string. -/
structure SyncStats where
  files_scanned : Nat := 0
  files_added : Nat := 0
  files_updated : Nat := 0
  files_deleted : Nat := 0
  files_unchanged : Nat := 0
  files_failed : Nat := 0
  bytes_transferred : Nat := 0
  permissions_synced : Nat := 0
  permissions_failed : Nat := 0
  sync_mode : String := "full"
  deriving Repr, DecidableEq

/-- The configuration bits the reconciliation engine reads.  The first
three string fields feed `Config.validate`; `blobPfx` models the
`blob_prefix` setting; `sync_permissions` and `force_full` model the
`SYNC_PERMISSIONS` / `FORCE_FULL_SYNC` environment switches read at the
start of the run. -/
structure Config where
  sharepoint_site_url : String
  storage_account_name : String
  container_name : String
  blobPfx : String := ""
  delete_orphaned_blobs : Bool := false
  dry_run : Bool := false
  sync_permissions : Bool := false
  force_full : Bool := false
  deriving Repr, DecidableEq

/-- Model of `Config.validate` (`config.py` lines 51–63) reduced to its success
condition: it raises `ValueError` exactly when one of the three required
settings is empty. -/
def Config.validateOk (c : Config) : Bool :=
  c.sharepoint_site_url ≠ "" && c.storage_account_name ≠ ""
    && c.container_name ≠ ""

/-- The external collaborators of one run, as response oracles. -/
structure SyncEnv where
  /-- Model of `SharePointClient.get_delta` on a given (optional) delta link. -/
  fetchDelta : Option String → DeltaResult
  /-- Model of `SharePointClient.list_files(folder_path)`, streamed to a list. -/
  spFiles : List SharePointFile
  /-- The raw container listing behind `BlobStorageClient.list_blobs`. -/
  rawBlobs : List RawBlob
  /-- Model of `SharePointClient.download_file` per item ID; `none` = raises. -/
  download : String → Option (List Nat)
  /-- Whether `BlobStorageClient.delete_blob` succeeds on a name. -/
  deleteOk : String → Bool
  /-- Model of `PermissionsClient.get_file_permissions` per item ID; `none` = raises. -/
  permFetch : String → Option FilePermissions

/-- Everything one run produces: final statistics, the mutation log on
the blob container (names actually uploaded / deleted / metadata-merged;
dry runs suppress these), the delta bookkeeping and the file list handed
to permission propagation. -/
structure RunOutput where
  stats : SyncStats := {}
  uploadedNames : List String := []
  deletedNames : List String := []
  metaUpdatedNames : List String := []
  changedFiles : List SharePointFile := []
  permTargets : List SharePointFile := []
  savedToken : Option String := none
  deriving Repr, DecidableEq

/-- Model of `_sync_permissions_for_files` on one file: fetch its
permissions (`none` = the call raised → `permissions_failed`); when the
permission list is non-empty, merge the encoded metadata onto the blob
(recorded in `metaUpdatedNames` unless dry-run) and count it synced;
an empty list changes nothing. -/
def syncPermissionsStep (cfg : Config) (env : SyncEnv) (out : RunOutput)
    (f : SharePointFile) : RunOutput :=
  let blob_name := get_blob_name cfg.blobPfx f.path
  match env.permFetch f.id with
  | none => { out with stats.permissions_failed := out.stats.permissions_failed + 1 }
  | some fperms =>
      if fperms.permissions.isEmpty then out
      else
        { out with
          stats.permissions_synced := out.stats.permissions_synced + 1,
          metaUpdatedNames :=
            if cfg.dry_run then out.metaUpdatedNames
            else out.metaUpdatedNames ++ [blob_name] }

/-- Model of `_sync_permissions_for_files` (`main.py` lines 95–144):
fold `syncPermissionsStep` over the given file list. -/
def syncPermissionsForFiles (cfg : Config) (env : SyncEnv)
    (files : List SharePointFile) (out : RunOutput) : RunOutput :=
  files.foldl (syncPermissionsStep cfg env) out

/-- Model of one iteration of the delta loop (`main.py` lines 204–248).
A `DELETED` change derives the blob name from the best-effort path and,
only when orphan deletion is enabled, attempts the delete (a dry run
cannot fail since nothing is called); a `CREATED_OR_MODIFIED` change
carrying a file downloads its content (failure → `files_failed`) and
unconditionally upserts the blob, appending the file to
`changedFiles`; a change without a file payload is only counted as
scanned. -/
def processDeltaChange (cfg : Config) (env : SyncEnv) (out : RunOutput)
    (change : DeltaChange) : RunOutput :=
  let out := { out with stats.files_scanned := out.stats.files_scanned + 1 }
  match change.change_type with
  | .DELETED =>
      let blob_name := get_blob_name cfg.blobPfx change.item_path
      if cfg.delete_orphaned_blobs then
        if cfg.dry_run then
          { out with stats.files_deleted := out.stats.files_deleted + 1 }
        else if env.deleteOk blob_name then
          { out with
            stats.files_deleted := out.stats.files_deleted + 1,
            deletedNames := out.deletedNames ++ [blob_name] }
        else
          { out with stats.files_failed := out.stats.files_failed + 1 }
      else out
  | .CREATED_OR_MODIFIED =>
      match change.file with
      | none => out
      | some sp_file =>
          let blob_name := get_blob_name cfg.blobPfx sp_file.path
          match env.download sp_file.id with
          | none => { out with stats.files_failed := out.stats.files_failed + 1 }
          | some content =>
              { out with
                stats.files_added := out.stats.files_added + 1,
                stats.bytes_transferred := out.stats.bytes_transferred + content.length,
                uploadedNames :=
                  if cfg.dry_run then out.uploadedNames
                  else out.uploadedNames ++ [blob_name],
                changedFiles := out.changedFiles ++ [sp_file] }

/-- Model of the delta branch of `sync_sharepoint_to_blob`
(`main.py` lines 188–271) given the delta link in effect: process every
change, persist the new token when one was returned (the write side
effect is suppressed on dry runs), then — when permission sync is
enabled — propagate permissions over a full listing of the library
(`all_files_for_perms`), not over `changedFiles`. -/
def runDeltaSync (cfg : Config) (env : SyncEnv) (delta_link : Option String) :
    RunOutput :=
  let mode := if delta_link.isNone then "delta-initial" else "delta-incremental"
  let delta_result := env.fetchDelta delta_link
  let out : RunOutput := { stats := { sync_mode := mode } }
  let out := delta_result.changes.foldl (processDeltaChange cfg env) out
  let out :=
    if delta_result.delta_token ≠ "" ∧ ¬cfg.dry_run then
      { out with savedToken := some delta_result.delta_token }
    else out
  if cfg.sync_permissions then
    let out := { out with permTargets := env.spFiles }
    syncPermissionsForFiles cfg env env.spFiles out
  else out

/-- Lookup of `existing_blobs.get(blob_name)`: the Python dict is filled
in listing order with assignment overwriting, so the last listed blob of
a name wins. -/
def lookupExisting (existing : List BlobFile) (name : String) : Option BlobFile :=
  existing.reverse.find? (fun b => b.name = name)

/-- Model of one iteration of the full-sync file loop (`main.py` lines
286–329): derive the blob key, record it as seen, then add / update /
skip according to `should_update`; a download failure is caught and
counted.  Every non-failing file is appended to `permTargets`
(`all_files`), the list later handed to permission propagation. -/
def processFullFile (cfg : Config) (env : SyncEnv) (existing : List BlobFile)
    (out : RunOutput) (sp_file : SharePointFile) : RunOutput :=
  let out := { out with stats.files_scanned := out.stats.files_scanned + 1 }
  let blob_name := get_blob_name cfg.blobPfx sp_file.path
  match lookupExisting existing blob_name with
  | none =>
      match env.download sp_file.id with
      | none => { out with stats.files_failed := out.stats.files_failed + 1 }
      | some content =>
          { out with
            stats.files_added := out.stats.files_added + 1,
            stats.bytes_transferred := out.stats.bytes_transferred + content.length,
            uploadedNames :=
              if cfg.dry_run then out.uploadedNames
              else out.uploadedNames ++ [blob_name],
            permTargets := out.permTargets ++ [sp_file] }
  | some existing_blob =>
      if should_update existing_blob sp_file.last_modified sp_file.content_hash then
        match env.download sp_file.id with
        | none => { out with stats.files_failed := out.stats.files_failed + 1 }
        | some content =>
            { out with
              stats.files_updated := out.stats.files_updated + 1,
              stats.bytes_transferred := out.stats.bytes_transferred + content.length,
              uploadedNames :=
                if cfg.dry_run then out.uploadedNames
                else out.uploadedNames ++ [blob_name],
              permTargets := out.permTargets ++ [sp_file] }
      else
        { out with
          stats.files_unchanged := out.stats.files_unchanged + 1,
          permTargets := out.permTargets ++ [sp_file] }

/-- The set of blob keys visited by the full file loop
(`seen_blob_names`). -/
def seenBlobNames (cfg : Config) (files : List SharePointFile) : List String :=
  files.map (fun f => get_blob_name cfg.blobPfx f.path)

/-- Model of the orphan-cleanup loop of the full branch (`main.py` lines
331–341): only when orphan deletion is enabled, every existing blob key
not recorded as seen is deleted (failure → `files_failed`; dry runs
cannot fail and suppress the mutation). -/
def orphanCleanup (cfg : Config) (env : SyncEnv) (existingNames : List String)
    (seen : List String) (out : RunOutput) : RunOutput :=
  if cfg.delete_orphaned_blobs then
    existingNames.foldl
      (fun out name =>
        if seen.contains name then out
        else if cfg.dry_run then
          { out with stats.files_deleted := out.stats.files_deleted + 1 }
        else if env.deleteOk name then
          { out with
            stats.files_deleted := out.stats.files_deleted + 1,
            deletedNames := out.deletedNames ++ [name] }
        else
          { out with stats.files_failed := out.stats.files_failed + 1 })
      out
  else out

/-- Keys of the `existing_blobs` dict in iteration order (listing order,
one occurrence per key — re-assignment does not move a dict key; the
model deduplicates with `List.dedup`, every theorem about the orphan
loop being insensitive to which occurrence survives). -/
def existingBlobKeys (existing : List BlobFile) : List String :=
  (existing.map (fun b => b.name)).dedup

/-- Model of the full-sync branch of `sync_sharepoint_to_blob`
(`main.py` lines 274–347): snapshot the existing blobs, run the file
loop, clean up orphans, then — when enabled — propagate permissions over
every visited file (`all_files`). -/
def runFullSync (cfg : Config) (env : SyncEnv) : RunOutput :=
  let existing := list_blobs env.rawBlobs
  let out : RunOutput := { stats := { sync_mode := "full" } }
  let out := env.spFiles.foldl (processFullFile cfg env existing) out
  let seen := seenBlobNames cfg env.spFiles
  let out := orphanCleanup cfg env (existingBlobKeys existing) seen out
  if cfg.sync_permissions then syncPermissionsForFiles cfg env out.permTargets out
  else out

/-- Modelled from the spec: `BlobStorageClient.load_delta_token` is not
under `src/` (only its caller in `main.py` is).  Per §4.3 and §7 of the
spec, the token store returns the persisted opaque deltaLink, and a
token that is read but structurally invalid (`StateCorruptionRisk`) must
be treated as "no token".  Structural validity of a deltaLink URL is
modelled as being an `https://` URL. -/
def isValidDeltaLink (s : String) : Bool :=
  "https://".data.isPrefixOf s.data && s ≠ ""

/-- Modelled from the spec: reading the persisted continuation token.
Absent or structurally corrupt state yields `none` rather than an
error. -/
def load_delta_token (stored : Option String) : Option String :=
  match stored with
  | none => none
  | some s => if isValidDeltaLink s then some s else none

/-- Model of the mode selection of `sync_sharepoint_to_blob`
(`main.py` lines 188–276): the token is loaded only when no full sync is
forced; the delta path is taken whenever a token is available or no full
sync is forced (so the full listing runs exactly when
`FORCE_FULL_SYNC` is set). -/
def sync_sharepoint_to_blob (cfg : Config) (env : SyncEnv)
    (storedToken : Option String) : RunOutput :=
  let delta_link := if cfg.force_full then none else load_delta_token storedToken
  if delta_link.isSome ∨ ¬cfg.force_full then runDeltaSync cfg env delta_link
  else runFullSync cfg env

/-- Exit-code mapping of `main` (`main.py` lines 352–391) for a run that
completes: `1` when any per-item content or permission failure was
counted, else `0`. -/
def runStatus (stats : SyncStats) : Nat :=
  if stats.files_failed > 0 ∨ stats.permissions_failed > 0 then 1 else 0

/-- Model of `main`: configuration validation failure raises
`ValueError` before any work starts (exit code `2`); otherwise the run
executes and its statistics determine the exit code. -/
def mainExitCode (cfg : Config) (env : SyncEnv) (storedToken : Option String) :
    Nat :=
  if ¬cfg.validateOk then 2
  else runStatus (sync_sharepoint_to_blob cfg env storedToken).stats

/-! ### Characterizations of the run folds -/

/-- Whether permission propagation on a file reaches the metadata merge:
the fetch succeeds and returns a non-empty permission list. -/
def permOk (env : SyncEnv) (f : SharePointFile) : Bool :=
  match env.permFetch f.id with
  | some fp => !fp.permissions.isEmpty
  | none => false

/-- Whether the permission fetch for a file raises. -/
def permFailed (env : SyncEnv) (f : SharePointFile) : Bool :=
  (env.permFetch f.id).isNone

/-- Closed form of the permission-propagation fold: it only adds to the
two permission counters and (on non-dry runs) appends the blob names of
the files whose non-empty permissions were merged. -/
theorem syncPermissionsForFiles_eq (cfg : Config) (env : SyncEnv)
    (files : List SharePointFile) (out : RunOutput) :
    syncPermissionsForFiles cfg env files out =
      { out with
        stats := { out.stats with
          permissions_synced := out.stats.permissions_synced + files.countP (permOk env),
          permissions_failed := out.stats.permissions_failed + files.countP (permFailed env) },
        metaUpdatedNames := out.metaUpdatedNames ++
          (if cfg.dry_run then []
           else (files.filter (permOk env)).map
             (fun f => get_blob_name cfg.blobPfx f.path)) } := by
  induction files generalizing out with
  | nil =>
      simp [syncPermissionsForFiles]
  | cons f fs ih =>
      have hstep : syncPermissionsForFiles cfg env (f :: fs) out =
          syncPermissionsForFiles cfg env fs (syncPermissionsStep cfg env out f) := rfl
      rw [hstep, ih]
      obtain ⟨⟨s1, s2, s3, s4, s5, s6, s7, s8, s9, s10⟩, u, d, m, c, p, tk⟩ := out
      unfold syncPermissionsStep permOk permFailed
      cases hp : env.permFetch f.id with
      | none =>
          simp [List.countP_cons, List.filter_cons, hp, Nat.add_assoc, Nat.add_comm,
            Nat.add_left_comm]
      | some fp =>
          cases he : fp.permissions.isEmpty with
          | true =>
              simp [List.countP_cons, List.filter_cons, hp, he]
          | false =>
              cases hd : cfg.dry_run with
              | true =>
                  simp [List.countP_cons, List.filter_cons, hp, he, hd, Nat.add_assoc,
                    Nat.add_comm, Nat.add_left_comm]
              | false =>
                  simp [List.countP_cons, List.filter_cons, hp, he, hd, Nat.add_assoc,
                    Nat.add_comm, Nat.add_left_comm]

/-- Blob name derived for a SharePoint file. -/
def spBlobName (cfg : Config) (f : SharePointFile) : String :=
  get_blob_name cfg.blobPfx f.path

/-- Whether a delta change is a deletion that the run carries out (or
would, on a dry run). -/
def deltaDeleteOk (cfg : Config) (env : SyncEnv) (c : DeltaChange) : Bool :=
  c.change_type = DeltaChangeType.DELETED && cfg.delete_orphaned_blobs
    && (cfg.dry_run || env.deleteOk (get_blob_name cfg.blobPfx c.item_path))

/-- Whether a delta deletion attempt raises. -/
def deltaDeleteFailed (cfg : Config) (env : SyncEnv) (c : DeltaChange) : Bool :=
  c.change_type = DeltaChangeType.DELETED && cfg.delete_orphaned_blobs
    && !cfg.dry_run && !env.deleteOk (get_blob_name cfg.blobPfx c.item_path)

/-- Whether a delta change is a file upsert whose download succeeds. -/
def deltaUpsertOk (env : SyncEnv) (c : DeltaChange) : Bool :=
  c.change_type = DeltaChangeType.CREATED_OR_MODIFIED
    && (match c.file with
        | some f => (env.download f.id).isSome
        | none => false)

/-- Whether a delta file upsert fails at the download. -/
def deltaUpsertFailed (env : SyncEnv) (c : DeltaChange) : Bool :=
  c.change_type = DeltaChangeType.CREATED_OR_MODIFIED
    && (match c.file with
        | some f => (env.download f.id).isNone
        | none => false)

/-- Whether processing a delta change increments `files_failed`. -/
def deltaFailed (cfg : Config) (env : SyncEnv) (c : DeltaChange) : Bool :=
  deltaDeleteFailed cfg env c || deltaUpsertFailed env c

/-- Bytes transferred while processing one delta change. -/
def deltaBytes (env : SyncEnv) (c : DeltaChange) : Nat :=
  if c.change_type = DeltaChangeType.CREATED_OR_MODIFIED then
    match c.file with
    | some f =>
        match env.download f.id with
        | some content => content.length
        | none => 0
    | none => 0
  else 0

/-- The files appended to `changed_files` by the delta loop: every file
payload of a created-or-modified change whose download succeeded. -/
def deltaChangedFiles (env : SyncEnv) (cs : List DeltaChange) : List SharePointFile :=
  cs.filterMap (fun c =>
    if c.change_type = DeltaChangeType.CREATED_OR_MODIFIED then
      match c.file with
      | some f => if (env.download f.id).isSome then some f else none
      | none => none
    else none)

/-- The blob names actually deleted by the delta loop (empty on dry
runs). -/
def deltaDeletedNames (cfg : Config) (env : SyncEnv) (cs : List DeltaChange) :
    List String :=
  if cfg.dry_run then []
  else
    cs.filterMap (fun c =>
      if c.change_type = DeltaChangeType.DELETED ∧ cfg.delete_orphaned_blobs
          ∧ env.deleteOk (get_blob_name cfg.blobPfx c.item_path) then
        some (get_blob_name cfg.blobPfx c.item_path)
      else none)

/-- Closed form of the delta change loop. -/
theorem processDeltaChange_foldl_eq (cfg : Config) (env : SyncEnv)
    (cs : List DeltaChange) (out : RunOutput) :
    cs.foldl (processDeltaChange cfg env) out =
      { out with
        stats := { out.stats with
          files_scanned := out.stats.files_scanned + cs.length,
          files_added := out.stats.files_added + cs.countP (deltaUpsertOk env),
          files_deleted := out.stats.files_deleted + cs.countP (deltaDeleteOk cfg env),
          files_failed := out.stats.files_failed + cs.countP (deltaFailed cfg env),
          bytes_transferred := out.stats.bytes_transferred + (cs.map (deltaBytes env)).sum },
        uploadedNames := out.uploadedNames ++
          (if cfg.dry_run then []
           else (deltaChangedFiles env cs).map (fun f => get_blob_name cfg.blobPfx f.path)),
        deletedNames := out.deletedNames ++ deltaDeletedNames cfg env cs,
        changedFiles := out.changedFiles ++ deltaChangedFiles env cs } := by
  induction cs generalizing out with
  | nil =>
      simp [deltaChangedFiles, deltaDeletedNames]
  | cons c cs ih =>
      rw [List.foldl_cons, ih]
      obtain ⟨⟨s1, s2, s3, s4, s5, s6, s7, s8, s9, s10⟩, u, d, m, ch, p, tk⟩ := out
      cases hct : c.change_type with
      | DELETED =>
          cases hflag : cfg.delete_orphaned_blobs with
          | false =>
              simp [processDeltaChange, hct, hflag, List.countP_cons, deltaUpsertOk,
                deltaDeleteOk, deltaDeleteFailed, deltaUpsertFailed, deltaFailed,
                deltaBytes, deltaChangedFiles, deltaDeletedNames, Nat.add_assoc,
                Nat.add_comm, Nat.add_left_comm]
          | true =>
              cases hdry : cfg.dry_run with
              | true =>
                  simp [processDeltaChange, hct, hflag, hdry, List.countP_cons,
                    deltaUpsertOk, deltaDeleteOk, deltaDeleteFailed, deltaUpsertFailed,
                    deltaFailed, deltaBytes, deltaChangedFiles, deltaDeletedNames,
                    Nat.add_assoc, Nat.add_comm, Nat.add_left_comm]
              | false =>
                  cases hok : env.deleteOk (get_blob_name cfg.blobPfx c.item_path) with
                  | true =>
                      simp [processDeltaChange, hct, hflag, hdry, hok, List.countP_cons,
                        deltaUpsertOk, deltaDeleteOk, deltaDeleteFailed,
                        deltaUpsertFailed, deltaFailed, deltaBytes, deltaChangedFiles,
                        deltaDeletedNames, Nat.add_assoc, Nat.add_comm, Nat.add_left_comm]
                  | false =>
                      simp [processDeltaChange, hct, hflag, hdry, hok, List.countP_cons,
                        deltaUpsertOk, deltaDeleteOk, deltaDeleteFailed,
                        deltaUpsertFailed, deltaFailed, deltaBytes, deltaChangedFiles,
                        deltaDeletedNames, Nat.add_assoc, Nat.add_comm, Nat.add_left_comm]
      | CREATED_OR_MODIFIED =>
          cases hf : c.file with
          | none =>
              simp [processDeltaChange, hct, hf, List.countP_cons, deltaUpsertOk,
                deltaDeleteOk, deltaDeleteFailed, deltaUpsertFailed, deltaFailed,
                deltaBytes, deltaChangedFiles, deltaDeletedNames, Nat.add_assoc,
                Nat.add_comm, Nat.add_left_comm]
          | some f =>
              cases hdl : env.download f.id with
              | none =>
                  simp [processDeltaChange, hct, hf, hdl, List.countP_cons,
                    deltaUpsertOk, deltaDeleteOk, deltaDeleteFailed, deltaUpsertFailed,
                    deltaFailed, deltaBytes, deltaChangedFiles, deltaDeletedNames,
                    Nat.add_assoc, Nat.add_comm, Nat.add_left_comm]
              | some content =>
                  cases hdry : cfg.dry_run with
                  | true =>
                      simp [processDeltaChange, hct, hf, hdl, hdry, List.countP_cons,
                        deltaUpsertOk, deltaDeleteOk, deltaDeleteFailed,
                        deltaUpsertFailed, deltaFailed, deltaBytes, deltaChangedFiles,
                        deltaDeletedNames, Nat.add_assoc, Nat.add_comm, Nat.add_left_comm]
                  | false =>
                      simp [processDeltaChange, hct, hf, hdl, hdry, List.countP_cons,
                        deltaUpsertOk, deltaDeleteOk, deltaDeleteFailed,
                        deltaUpsertFailed, deltaFailed, deltaBytes, deltaChangedFiles,
                        deltaDeletedNames, Nat.add_assoc, Nat.add_comm, Nat.add_left_comm]

/-- Whether a full-sync file is a new upload (no existing blob, download
succeeds). -/
def fullAddOk (cfg : Config) (env : SyncEnv) (existing : List BlobFile)
    (f : SharePointFile) : Bool :=
  (lookupExisting existing (spBlobName cfg f)).isNone && (env.download f.id).isSome

/-- Whether a full-sync file is a stale-blob update (existing blob,
`should_update` true, download succeeds). -/
def fullUpdateOk (cfg : Config) (env : SyncEnv) (existing : List BlobFile)
    (f : SharePointFile) : Bool :=
  match lookupExisting existing (spBlobName cfg f) with
  | some b => should_update b f.last_modified f.content_hash && (env.download f.id).isSome
  | none => false

/-- Whether a full-sync file is left unchanged. -/
def fullUnchanged (cfg : Config) (env : SyncEnv) (existing : List BlobFile)
    (f : SharePointFile) : Bool :=
  match lookupExisting existing (spBlobName cfg f) with
  | some b => !should_update b f.last_modified f.content_hash
  | none => false

/-- Whether the full-sync file loop counts a failure for a file (it
would be transferred, and the download raises). -/
def fullFileFailed (cfg : Config) (env : SyncEnv) (existing : List BlobFile)
    (f : SharePointFile) : Bool :=
  (match lookupExisting existing (spBlobName cfg f) with
   | some b => should_update b f.last_modified f.content_hash
   | none => true) && (env.download f.id).isNone

/-- Bytes transferred for one full-sync file. -/
def fullBytes (cfg : Config) (env : SyncEnv) (existing : List BlobFile)
    (f : SharePointFile) : Nat :=
  let transfer :=
    match lookupExisting existing (spBlobName cfg f) with
    | some b => should_update b f.last_modified f.content_hash
    | none => true
  if transfer then
    match env.download f.id with
    | some content => content.length
    | none => 0
  else 0

/-- Closed form of the full-sync file loop. -/
theorem processFullFile_foldl_eq (cfg : Config) (env : SyncEnv)
    (existing : List BlobFile) (fs : List SharePointFile) (out : RunOutput) :
    fs.foldl (processFullFile cfg env existing) out =
      { out with
        stats := { out.stats with
          files_scanned := out.stats.files_scanned + fs.length,
          files_added := out.stats.files_added + fs.countP (fullAddOk cfg env existing),
          files_updated := out.stats.files_updated + fs.countP (fullUpdateOk cfg env existing),
          files_unchanged := out.stats.files_unchanged + fs.countP (fullUnchanged cfg env existing),
          files_failed := out.stats.files_failed + fs.countP (fullFileFailed cfg env existing),
          bytes_transferred := out.stats.bytes_transferred + (fs.map (fullBytes cfg env existing)).sum },
        uploadedNames := out.uploadedNames ++
          (if cfg.dry_run then []
           else (fs.filter (fun f => fullAddOk cfg env existing f
             || fullUpdateOk cfg env existing f)).map (spBlobName cfg)),
        permTargets := out.permTargets ++
          fs.filter (fun f => !fullFileFailed cfg env existing f) } := by
  induction fs generalizing out with
  | nil => simp
  | cons f fs ih =>
      rw [List.foldl_cons, ih]
      obtain ⟨⟨s1, s2, s3, s4, s5, s6, s7, s8, s9, s10⟩, u, d, m, ch, p, tk⟩ := out
      cases hex : lookupExisting existing (get_blob_name cfg.blobPfx f.path) with
      | none =>
          cases hdl : env.download f.id with
          | none =>
              simp [processFullFile, spBlobName, hex, hdl, List.countP_cons,
                List.filter_cons, fullAddOk, fullUpdateOk, fullUnchanged,
                fullFileFailed, fullBytes, Nat.add_assoc, Nat.add_comm,
                Nat.add_left_comm]
          | some content =>
              cases hdry : cfg.dry_run with
              | true =>
                  simp [processFullFile, spBlobName, hex, hdl, hdry, List.countP_cons,
                    List.filter_cons, fullAddOk, fullUpdateOk, fullUnchanged,
                    fullFileFailed, fullBytes, Nat.add_assoc, Nat.add_comm,
                    Nat.add_left_comm]
              | false =>
                  simp [processFullFile, spBlobName, hex, hdl, hdry, List.countP_cons,
                    List.filter_cons, fullAddOk, fullUpdateOk, fullUnchanged,
                    fullFileFailed, fullBytes, Nat.add_assoc, Nat.add_comm,
                    Nat.add_left_comm]
      | some b =>
          cases hsu : should_update b f.last_modified f.content_hash with
          | false =>
              simp [processFullFile, spBlobName, hex, hsu, List.countP_cons,
                List.filter_cons, fullAddOk, fullUpdateOk, fullUnchanged,
                fullFileFailed, fullBytes, Nat.add_assoc, Nat.add_comm,
                Nat.add_left_comm]
          | true =>
              cases hdl : env.download f.id with
              | none =>
                  simp [processFullFile, spBlobName, hex, hsu, hdl, List.countP_cons,
                    List.filter_cons, fullAddOk, fullUpdateOk, fullUnchanged,
                    fullFileFailed, fullBytes, Nat.add_assoc, Nat.add_comm,
                    Nat.add_left_comm]
              | some content =>
                  cases hdry : cfg.dry_run with
                  | true =>
                      simp [processFullFile, spBlobName, hex, hsu, hdl, hdry,
                        List.countP_cons, List.filter_cons, fullAddOk, fullUpdateOk,
                        fullUnchanged, fullFileFailed, fullBytes, Nat.add_assoc,
                        Nat.add_comm, Nat.add_left_comm]
                  | false =>
                      simp [processFullFile, spBlobName, hex, hsu, hdl, hdry,
                        List.countP_cons, List.filter_cons, fullAddOk, fullUpdateOk,
                        fullUnchanged, fullFileFailed, fullBytes, Nat.add_assoc,
                        Nat.add_comm, Nat.add_left_comm]

/-- Whether the orphan loop deletes (or dry-run-deletes) an existing
key. -/
def orphanDeleteOk (cfg : Config) (env : SyncEnv) (seen : List String)
    (n : String) : Bool :=
  !seen.contains n && (cfg.dry_run || env.deleteOk n)

/-- Whether the orphan loop counts a failed deletion for an existing
key. -/
def orphanDeleteFailed (cfg : Config) (env : SyncEnv) (seen : List String)
    (n : String) : Bool :=
  !seen.contains n && !cfg.dry_run && !env.deleteOk n

/-- Closed form of the orphan-cleanup loop: with orphan deletion
disabled it is the identity; otherwise it deletes exactly the unseen
keys whose deletion succeeds. -/
theorem orphanCleanup_eq (cfg : Config) (env : SyncEnv)
    (names seen : List String) (out : RunOutput) :
    orphanCleanup cfg env names seen out =
      if cfg.delete_orphaned_blobs then
        { out with
          stats := { out.stats with
            files_deleted := out.stats.files_deleted + names.countP (orphanDeleteOk cfg env seen),
            files_failed := out.stats.files_failed + names.countP (orphanDeleteFailed cfg env seen) },
          deletedNames := out.deletedNames ++
            (if cfg.dry_run then []
             else names.filter (fun n => !seen.contains n && env.deleteOk n)) }
      else out := by
  cases hflag : cfg.delete_orphaned_blobs with
  | false => simp [orphanCleanup, hflag]
  | true =>
      simp only [orphanCleanup, hflag, if_true]
      induction names generalizing out with
      | nil => simp
      | cons n ns ih =>
          rw [List.foldl_cons, ih]
          obtain ⟨⟨s1, s2, s3, s4, s5, s6, s7, s8, s9, s10⟩, u, d, m, ch, p, tk⟩ := out
          by_cases hseen : n ∈ seen
          · simp [hseen, List.countP_cons, List.filter_cons, orphanDeleteOk,
              orphanDeleteFailed, Nat.add_assoc, Nat.add_comm, Nat.add_left_comm]
          · cases hdry : cfg.dry_run with
            | true =>
                simp [hseen, hdry, List.countP_cons, List.filter_cons,
                  orphanDeleteOk, orphanDeleteFailed, Nat.add_assoc, Nat.add_comm,
                  Nat.add_left_comm]
            | false =>
                cases hok : env.deleteOk n with
                | true =>
                    simp [hseen, hdry, hok, List.countP_cons, List.filter_cons,
                      orphanDeleteOk, orphanDeleteFailed, Nat.add_assoc,
                      Nat.add_comm, Nat.add_left_comm]
                | false =>
                    simp [hseen, hdry, hok, List.countP_cons, List.filter_cons,
                      orphanDeleteOk, orphanDeleteFailed, Nat.add_assoc,
                      Nat.add_comm, Nat.add_left_comm]

/-- Closed form of the whole delta branch. -/
theorem runDeltaSync_eq (cfg : Config) (env : SyncEnv) (link : Option String) :
    runDeltaSync cfg env link =
      { stats := {
          files_scanned := (env.fetchDelta link).changes.length,
          files_added := (env.fetchDelta link).changes.countP (deltaUpsertOk env),
          files_updated := 0,
          files_deleted := (env.fetchDelta link).changes.countP (deltaDeleteOk cfg env),
          files_unchanged := 0,
          files_failed := (env.fetchDelta link).changes.countP (deltaFailed cfg env),
          bytes_transferred := ((env.fetchDelta link).changes.map (deltaBytes env)).sum,
          permissions_synced :=
            if cfg.sync_permissions then env.spFiles.countP (permOk env) else 0,
          permissions_failed :=
            if cfg.sync_permissions then env.spFiles.countP (permFailed env) else 0,
          sync_mode := if link.isNone then "delta-initial" else "delta-incremental" },
        uploadedNames :=
          if cfg.dry_run then []
          else (deltaChangedFiles env (env.fetchDelta link).changes).map
            (fun f => get_blob_name cfg.blobPfx f.path),
        deletedNames := deltaDeletedNames cfg env (env.fetchDelta link).changes,
        metaUpdatedNames :=
          if cfg.sync_permissions ∧ ¬cfg.dry_run then
            (env.spFiles.filter (permOk env)).map
              (fun f => get_blob_name cfg.blobPfx f.path)
          else [],
        changedFiles := deltaChangedFiles env (env.fetchDelta link).changes,
        permTargets := if cfg.sync_permissions then env.spFiles else [],
        savedToken :=
          if (env.fetchDelta link).delta_token ≠ "" ∧ ¬cfg.dry_run then
            some (env.fetchDelta link).delta_token
          else none } := by
  simp only [runDeltaSync, processDeltaChange_foldl_eq, syncPermissionsForFiles_eq]
  cases hsp : cfg.sync_permissions with
  | false =>
      cases hdry : cfg.dry_run with
      | true => by_cases htok : (env.fetchDelta link).delta_token = "" <;>
          simp [hsp, hdry, htok]
      | false => by_cases htok : (env.fetchDelta link).delta_token = "" <;>
          simp [hsp, hdry, htok]
  | true =>
      cases hdry : cfg.dry_run with
      | true => by_cases htok : (env.fetchDelta link).delta_token = "" <;>
          simp [hsp, hdry, htok]
      | false => by_cases htok : (env.fetchDelta link).delta_token = "" <;>
          simp [hsp, hdry, htok]

/-- The file list handed to permission propagation by the full branch
(`all_files`): every visited file that did not fail. -/
def fullAllFiles (cfg : Config) (env : SyncEnv) : List SharePointFile :=
  env.spFiles.filter
    (fun f => !fullFileFailed cfg env (list_blobs env.rawBlobs) f)

/-- Closed form of the whole full-sync branch. -/
theorem runFullSync_eq (cfg : Config) (env : SyncEnv) :
    runFullSync cfg env =
      { stats := {
          files_scanned := env.spFiles.length,
          files_added := env.spFiles.countP (fullAddOk cfg env (list_blobs env.rawBlobs)),
          files_updated := env.spFiles.countP (fullUpdateOk cfg env (list_blobs env.rawBlobs)),
          files_deleted :=
            if cfg.delete_orphaned_blobs then
              (existingBlobKeys (list_blobs env.rawBlobs)).countP
                (orphanDeleteOk cfg env (seenBlobNames cfg env.spFiles))
            else 0,
          files_unchanged := env.spFiles.countP (fullUnchanged cfg env (list_blobs env.rawBlobs)),
          files_failed :=
            env.spFiles.countP (fullFileFailed cfg env (list_blobs env.rawBlobs))
              + (if cfg.delete_orphaned_blobs then
                  (existingBlobKeys (list_blobs env.rawBlobs)).countP
                    (orphanDeleteFailed cfg env (seenBlobNames cfg env.spFiles))
                 else 0),
          bytes_transferred := (env.spFiles.map (fullBytes cfg env (list_blobs env.rawBlobs))).sum,
          permissions_synced :=
            if cfg.sync_permissions then (fullAllFiles cfg env).countP (permOk env) else 0,
          permissions_failed :=
            if cfg.sync_permissions then (fullAllFiles cfg env).countP (permFailed env) else 0,
          sync_mode := "full" },
        uploadedNames :=
          if cfg.dry_run then []
          else (env.spFiles.filter (fun f =>
            fullAddOk cfg env (list_blobs env.rawBlobs) f
              || fullUpdateOk cfg env (list_blobs env.rawBlobs) f)).map (spBlobName cfg),
        deletedNames :=
          if cfg.delete_orphaned_blobs ∧ ¬cfg.dry_run then
            (existingBlobKeys (list_blobs env.rawBlobs)).filter
              (fun n => !(seenBlobNames cfg env.spFiles).contains n && env.deleteOk n)
          else [],
        metaUpdatedNames :=
          if cfg.sync_permissions ∧ ¬cfg.dry_run then
            ((fullAllFiles cfg env).filter (permOk env)).map
              (fun f => get_blob_name cfg.blobPfx f.path)
          else [],
        changedFiles := [],
        permTargets := fullAllFiles cfg env,
        savedToken := none } := by
  simp only [runFullSync, processFullFile_foldl_eq, orphanCleanup_eq,
    syncPermissionsForFiles_eq, fullAllFiles]
  cases hsp : cfg.sync_permissions with
  | false =>
      cases hdry : cfg.dry_run with
      | true => cases hflag : cfg.delete_orphaned_blobs <;> simp [hsp, hdry, hflag, spBlobName]
      | false => cases hflag : cfg.delete_orphaned_blobs <;> simp [hsp, hdry, hflag, spBlobName]
  | true =>
      cases hdry : cfg.dry_run with
      | true => cases hflag : cfg.delete_orphaned_blobs <;> simp [hsp, hdry, hflag, spBlobName]
      | false => cases hflag : cfg.delete_orphaned_blobs <;> simp [hsp, hdry, hflag, spBlobName]

/-! ### Helper lemmas -/

/-- Stripping deprecated keys is invisible to lookups of other keys and
erases deprecated ones. -/
theorem lookup_stripDeprecated (md : List (String × String)) (k : String) :
    (stripDeprecated md).lookup k =
      if deprecated_fields.contains k then none else md.lookup k := by
  induction md with
  | nil => cases hdk : deprecated_fields.contains k <;> simp [stripDeprecated, hdk]
  | cons p md ih =>
      obtain ⟨k', v⟩ := p
      cases hd : deprecated_fields.contains k' with
      | true =>
          have hd' : k' ∈ deprecated_fields := by simpa using hd
          have h1 : stripDeprecated ((k', v) :: md) = stripDeprecated md := by
            simp [stripDeprecated, List.filter_cons, hd']
          rw [h1, ih]
          by_cases hkk : k = k'
          · subst hkk
            rw [if_pos hd, if_pos hd]
          · have hbe : (k == k') = false := beq_eq_false_iff_ne.mpr hkk
            have h2 : List.lookup k ((k', v) :: md) = List.lookup k md := by
              simp [List.lookup, hbe]
            rw [h2]
      | false =>
          have hd' : k' ∉ deprecated_fields := by simpa using hd
          have h1 : stripDeprecated ((k', v) :: md) = (k', v) :: stripDeprecated md := by
            simp [stripDeprecated, List.filter_cons, hd']
          rw [h1]
          by_cases hkk : k = k'
          · subst hkk
            simp [List.lookup, hd, hd']
          · have hbe : (k == k') = false := beq_eq_false_iff_ne.mpr hkk
            simp [List.lookup, hbe, ih]

/-- A nonempty first element makes a `"|"`-join nonempty. -/
theorem pyJoin_ne_empty (x : String) (xs : List String) (hx : x ≠ "") :
    pyJoin "|" (x :: xs) ≠ "" := by
  cases xs with
  | nil => simpa [pyJoin] using hx
  | cons y ys =>
      intro h
      have hl := congrArg String.length h
      have h1 : ("|" : String).length = 1 := rfl
      have h0 : ("" : String).length = 0 := rfl
      simp [pyJoin, String.length_append, h1, h0] at hl

/-- Every ID in the encoded user list is a well-formed GUID. -/
theorem mem_extract_user_ids_valid (fp : FilePermissions) (x : String)
    (hx : x ∈ fp.extract_user_ids) : is_valid_guid x = true := by
  rw [FilePermissions.extract_user_ids, List.mem_dedup] at hx
  obtain ⟨p, _, hp⟩ := List.mem_filterMap.mp hx
  cases hid : p.identity_id with
  | none =>
      simp only [hid] at hp
      exact Option.noConfusion hp
  | some v =>
      simp only [hid] at hp
      by_cases hc : p.identity_type = "user" ∧ v ≠ "" ∧ is_valid_guid v = true
      · rw [if_pos hc] at hp
        obtain rfl : v = x := by injection hp
        exact hc.2.2
      · rw [if_neg hc] at hp
        exact Option.noConfusion hp

/-- Every ID in the encoded group list is a well-formed GUID. -/
theorem mem_extract_group_ids_valid (fp : FilePermissions) (x : String)
    (hx : x ∈ fp.extract_group_ids) : is_valid_guid x = true := by
  rw [FilePermissions.extract_group_ids, List.mem_dedup] at hx
  obtain ⟨p, _, hp⟩ := List.mem_filterMap.mp hx
  cases hid : p.identity_id with
  | none =>
      simp only [hid] at hp
      exact Option.noConfusion hp
  | some v =>
      simp only [hid] at hp
      by_cases hc : p.identity_type = "group" ∧ v ≠ "" ∧ is_valid_guid v = true
      · rw [if_pos hc] at hp
        obtain rfl : v = x := by injection hp
        exact hc.2.2
      · rw [if_neg hc] at hp
        exact Option.noConfusion hp

/-- A well-formed GUID is not the empty string. -/
theorem valid_guid_ne_empty (v : String) (h : is_valid_guid v = true) : v ≠ "" := by
  intro he
  subst he
  exact absurd h (by decide)

/-- Lookup of the encoded user-ID field of `to_metadata`. -/
theorem to_metadata_lookup_user (fp : FilePermissions) (now : String) :
    (fp.to_metadata now).lookup METADATA_ACL_USER_IDS =
      some (if fp.extract_user_ids.isEmpty then PLACEHOLDER_NO_USERS
            else pyJoin "|" fp.extract_user_ids) := rfl

/-- Lookup of the encoded group-ID field of `to_metadata`. -/
theorem to_metadata_lookup_group (fp : FilePermissions) (now : String) :
    (fp.to_metadata now).lookup METADATA_ACL_GROUP_IDS =
      some (if fp.extract_group_ids.isEmpty then PLACEHOLDER_NO_GROUPS
            else pyJoin "|" fp.extract_group_ids) := rfl

/-! ### Claim theorems -/

/-- C8: for every metadata merge into an existing artifact, the result
looks up to the new value when the new keys cover the key, otherwise to
nothing for a deprecated key, otherwise to the existing value — i.e. the
merge is "existing minus the fixed deprecated list, new keys on top",
and every existing key neither deprecated nor overridden keeps its
previous value. -/
theorem C8_metadata_merge (existing additional : List (String × String)) (k : String) :
    (update_blob_metadata_merge existing additional).lookup k =
      match additional.lookup k with
      | some v => some v
      | none => if deprecated_fields.contains k then none else existing.lookup k := by
  rw [update_blob_metadata_merge, List.lookup_append, lookup_stripDeprecated]
  cases additional.lookup k <;> rfl

/-- C4 counterexample: the claim that neither sentinel equals the
all-zero GUID is false — the no-users sentinel is exactly the all-zero
GUID. -/
theorem C4_counterexample :
    PLACEHOLDER_NO_USERS = allZeroGuid ∧
    ¬(PLACEHOLDER_NO_USERS ≠ allZeroGuid ∧ PLACEHOLDER_NO_GROUPS ≠ allZeroGuid) :=
  ⟨rfl, fun h => h.1 rfl⟩

/-- C4 amended: the two sentinels are distinct fixed well-formed GUIDs,
and the no-groups sentinel differs from the all-zero GUID, but the
no-users sentinel is exactly the all-zero GUID. -/
theorem C4_amended_sentinels :
    PLACEHOLDER_NO_USERS ≠ PLACEHOLDER_NO_GROUPS ∧
    is_valid_guid PLACEHOLDER_NO_USERS = true ∧
    is_valid_guid PLACEHOLDER_NO_GROUPS = true ∧
    PLACEHOLDER_NO_USERS = allZeroGuid ∧
    PLACEHOLDER_NO_GROUPS ≠ allZeroGuid := by
  refine ⟨by decide, by decide, by decide, rfl, by decide⟩

/-- C9: in delta mode every successfully downloaded created-or-modified
file is counted as added (whether or not a blob with the same key
already exists — the store is never consulted), and the updated and
unchanged counters stay zero. -/
theorem C9_delta_counters (cfg : Config) (env : SyncEnv) (link : Option String) :
    (runDeltaSync cfg env link).stats.files_added =
      (env.fetchDelta link).changes.countP (deltaUpsertOk env) ∧
    (runDeltaSync cfg env link).stats.files_updated = 0 ∧
    (runDeltaSync cfg env link).stats.files_unchanged = 0 := by
  rw [runDeltaSync_eq]
  exact ⟨rfl, rfl, rfl⟩

/-- C2 amended: in delta mode with permission sync enabled, permission
propagation targets every file of a fresh full listing of the library —
not the changed-in-this-run list (which is tracked but unused for
permissions) — and the metadata merge reaches exactly the listed files
whose permission fetch returns a non-empty set. -/
theorem C2_amended_perm_targets (cfg : Config) (env : SyncEnv) (link : Option String) :
    (runDeltaSync cfg env link).permTargets =
      (if cfg.sync_permissions then env.spFiles else []) ∧
    (runDeltaSync cfg env link).metaUpdatedNames =
      (if cfg.sync_permissions ∧ ¬cfg.dry_run then
        (env.spFiles.filter (permOk env)).map (fun f => get_blob_name cfg.blobPfx f.path)
       else []) := by
  rw [runDeltaSync_eq]
  exact ⟨rfl, rfl⟩

/-- C3: the ACL encoding yields the lone GUID plus the no-groups
sentinel for a one-user/no-group permission set; both sentinels for an
empty set; an entry with a malformed identity ID stays out of both
encoded ID lists but remains in the raw JSON projection; and both
encoded fields are always present and non-empty. -/
theorem C3_acl_encoding (fp : FilePermissions) (now g badId : String) :
    ((fp.extract_user_ids = [g] ∧ fp.extract_group_ids = []) →
       (fp.to_metadata now).lookup METADATA_ACL_USER_IDS = some g ∧
       (fp.to_metadata now).lookup METADATA_ACL_GROUP_IDS = some PLACEHOLDER_NO_GROUPS) ∧
    (fp.permissions = [] →
       (fp.to_metadata now).lookup METADATA_ACL_USER_IDS = some PLACEHOLDER_NO_USERS ∧
       (fp.to_metadata now).lookup METADATA_ACL_GROUP_IDS = some PLACEHOLDER_NO_GROUPS) ∧
    ((∃ p ∈ fp.permissions, p.identity_id = some badId) → is_valid_guid badId = false →
       badId ∉ fp.extract_user_ids ∧ badId ∉ fp.extract_group_ids ∧
       ∃ pd ∈ fp.rawProjection, pd.identity_id = some badId) ∧
    (∃ u v, (fp.to_metadata now).lookup METADATA_ACL_USER_IDS = some u ∧ u ≠ "" ∧
            (fp.to_metadata now).lookup METADATA_ACL_GROUP_IDS = some v ∧ v ≠ "") := by
  refine ⟨?_, ?_, ?_, ?_⟩
  · rintro ⟨hu, hg⟩
    rw [to_metadata_lookup_user, to_metadata_lookup_group, hu, hg]
    exact ⟨rfl, rfl⟩
  · intro h
    have hu : fp.extract_user_ids = [] := by
      simp [FilePermissions.extract_user_ids, h]
    have hg : fp.extract_group_ids = [] := by
      simp [FilePermissions.extract_group_ids, h]
    rw [to_metadata_lookup_user, to_metadata_lookup_group, hu, hg]
    exact ⟨rfl, rfl⟩
  · rintro ⟨p, hmem, hpid⟩ hbad
    refine ⟨?_, ?_, ?_⟩
    · intro hmem'
      have := mem_extract_user_ids_valid fp badId hmem'
      rw [hbad] at this
      exact Bool.noConfusion this
    · intro hmem'
      have := mem_extract_group_ids_valid fp badId hmem'
      rw [hbad] at this
      exact Bool.noConfusion this
    · exact ⟨p.to_dict, List.mem_map_of_mem _ hmem, hpid⟩
  · have huser : ∃ u, (fp.to_metadata now).lookup METADATA_ACL_USER_IDS = some u ∧ u ≠ "" := by
      rw [to_metadata_lookup_user]
      cases hu : fp.extract_user_ids with
      | nil => exact ⟨PLACEHOLDER_NO_USERS, rfl, by decide⟩
      | cons x xs =>
          refine ⟨pyJoin "|" (x :: xs), rfl, ?_⟩
          refine pyJoin_ne_empty x xs (valid_guid_ne_empty x ?_)
          refine mem_extract_user_ids_valid fp x ?_
          rw [hu]
          exact List.mem_cons_self x xs
    have hgroup : ∃ v, (fp.to_metadata now).lookup METADATA_ACL_GROUP_IDS = some v ∧ v ≠ "" := by
      rw [to_metadata_lookup_group]
      cases hg : fp.extract_group_ids with
      | nil => exact ⟨PLACEHOLDER_NO_GROUPS, rfl, by decide⟩
      | cons x xs =>
          refine ⟨pyJoin "|" (x :: xs), rfl, ?_⟩
          refine pyJoin_ne_empty x xs (valid_guid_ne_empty x ?_)
          refine mem_extract_group_ids_valid fp x ?_
          rw [hg]
          exact List.mem_cons_self x xs
    obtain ⟨u, hu1, hu2⟩ := huser
    obtain ⟨v, hv1, hv2⟩ := hgroup
    exact ⟨u, v, hu1, hu2, hv1, hv2⟩

/-- The existing blob of the C1 counterexample: its stored fingerprint
is `"etag-1"` and its stored remote-last-modified is midnight of
2024-01-01 UTC. -/
def c1Blob : BlobFile :=
  { name := "docs/a.txt", size := 3,
    last_modified := { year := 2024, month := 1, day := 1 },
    metadata := some [(METADATA_SP_CONTENT_HASH, "etag-1"),
                      (METADATA_SP_LAST_MODIFIED, "2024-01-01T00:00:00+00:00")] }

/-- A remote timestamp one day newer than the stored one. -/
def c1Remote2 : PyDateTime :=
  { year := 2024, month := 1, day := 2, tzOffsetMinutes := some 0 }

/-- C1 counterexample: with both fingerprints present and identical
(`"etag-1"` on both sides) `should_update` still answers "update" when
the remote timestamp is strictly newer — fingerprint equality does not
win over the timestamps. -/
theorem C1_counterexample :
    (match c1Blob.metadata with
     | some md => md.lookup METADATA_SP_CONTENT_HASH
     | none => none) = some "etag-1" ∧
    should_update c1Blob c1Remote2 (some "etag-1") = true := by
  exact ⟨rfl, by decide⟩

/-- C1 amended: a difference of present non-empty fingerprints forces an
update even with identical timestamps, but fingerprint equality does not
short-circuit the decision: the code falls through to the timestamp
comparison, updating exactly when the remote last-modified is strictly
newer than the (parseable) stored one. -/
theorem C1_amended_staleness (blob : BlobFile) (md : List (String × String))
    (sp_lm : PyDateTime) (sh ch sds : String) (d : PyDateTime)
    (hmeta : blob.metadata = some md) (hne : md.isEmpty = false)
    (hsh : md.lookup METADATA_SP_CONTENT_HASH = some sh)
    (hshne : sh ≠ "") (hchne : ch ≠ "") :
    (sh ≠ ch → should_update blob sp_lm (some ch) = true) ∧
    (sh = ch →
     md.lookup METADATA_SP_LAST_MODIFIED = some sds → sds ≠ "" →
     fromisoformat (replaceZ sds) = some d →
     (should_update blob sp_lm (some ch) = true ↔
        toEpochMicros d < toEpochMicros sp_lm)) := by
  constructor
  · intro hdiff
    simp [should_update, hmeta, hne, hsh, hshne, hchne, hdiff]
  · intro heq hlm hsdsne hparse
    subst heq
    simp [should_update, hmeta, hne, hsh, hlm, hsdsne, hparse, gt_iff_lt]

/-- The SharePoint file of the C2 counterexample. -/
def c2File : SharePointFile :=
  { id := "item-1", name := "a.txt", path := "/docs/a.txt", size := 3,
    last_modified := { year := 2024, month := 1, day := 1 } }

/-- A permission entry with one valid user GUID. -/
def c2Perm : SharePointPermission :=
  { id := "perm-1", roles := ["read"], identity_type := "user",
    display_name := "A User",
    identity_id := some "12345678-1234-1234-1234-123456789abc" }

/-- A configuration with permission sync enabled. -/
def c2Cfg : Config :=
  { sharepoint_site_url := "https://contoso.sharepoint.com/sites/S",
    storage_account_name := "acct", container_name := "cont",
    sync_permissions := true }

/-- An environment whose delta feed reports no changes at all while the
library lists one file carrying permissions. -/
def c2Env : SyncEnv :=
  { fetchDelta := fun _ => { changes := [], delta_token := "" },
    spFiles := [c2File],
    rawBlobs := [],
    download := fun _ => some [104, 105, 33],
    deleteOk := fun _ => true,
    permFetch := fun _ =>
      some { file_path := "/docs/a.txt", file_id := "item-1",
             permissions := [c2Perm] } }

/-- C2 counterexample: an incremental run with permission sync enabled
whose delta feed reports zero changes — the changed-in-this-run list is
empty — still applies permission metadata to a file found by the full
listing, so propagation is not restricted to the changed list. -/
theorem C2_counterexample :
    (runDeltaSync c2Cfg c2Env none).changedFiles = [] ∧
    (runDeltaSync c2Cfg c2Env none).stats.permissions_synced = 1 ∧
    (runDeltaSync c2Cfg c2Env none).metaUpdatedNames = ["docs/a.txt"] := by
  exact ⟨rfl, rfl, rfl⟩

/-- C5 (`load_delta_token` modelled from the spec): a stored token that
is structurally invalid is treated exactly like an absent token — the
run performs the initial-crawl delta reconciliation, runs to completion,
and (outside dry runs) persists the fresh token the feed returns. -/
theorem C5_corrupt_token_fallback (cfg : Config) (env : SyncEnv) (s : String)
    (hff : cfg.force_full = false) (hs : isValidDeltaLink s = false) :
    sync_sharepoint_to_blob cfg env (some s) = sync_sharepoint_to_blob cfg env none ∧
    (sync_sharepoint_to_blob cfg env (some s)).stats.sync_mode = "delta-initial" ∧
    ((env.fetchDelta none).delta_token ≠ "" → cfg.dry_run = false →
       (sync_sharepoint_to_blob cfg env (some s)).savedToken =
         some (env.fetchDelta none).delta_token) := by
  have h1 : sync_sharepoint_to_blob cfg env (some s) = runDeltaSync cfg env none := by
    simp [sync_sharepoint_to_blob, load_delta_token, hff, hs]
  have h2 : sync_sharepoint_to_blob cfg env none = runDeltaSync cfg env none := by
    simp [sync_sharepoint_to_blob, load_delta_token, hff]
  refine ⟨h1.trans h2.symm, ?_, ?_⟩
  · rw [h1, runDeltaSync_eq]
    rfl
  · intro ht hd
    rw [h1, runDeltaSync_eq]
    simp [ht, hd]

/-- With orphan deletion disabled the delta loop never records a
deletion. -/
theorem deltaDeletedNames_flag_false (cfg : Config) (env : SyncEnv)
    (cs : List DeltaChange) (h : cfg.delete_orphaned_blobs = false) :
    deltaDeletedNames cfg env cs = [] := by
  unfold deltaDeletedNames
  cases hdry : cfg.dry_run with
  | true => simp
  | false =>
      simp only [hdry, Bool.false_eq_true, if_false]
      induction cs with
      | nil => rfl
      | cons c cs ih => simp [List.filterMap_cons, h, ih]

/-- Blob names derived from a sublist of the listed files are seen. -/
theorem not_mem_map_name_of_not_seen (cfg : Config) (env : SyncEnv) (b : String)
    (l : List SharePointFile) (hsub : ∀ f ∈ l, f ∈ env.spFiles)
    (hseen : b ∉ seenBlobNames cfg env.spFiles) :
    b ∉ l.map (fun f => get_blob_name cfg.blobPfx f.path) := by
  intro hb
  obtain ⟨f, hf, hfb⟩ := List.mem_map.mp hb
  refine hseen ?_
  rw [seenBlobNames, ← hfb]
  exact List.mem_map_of_mem _ (hsub f hf)

/-- C7: the exit code is `2` exactly when configuration validation
fails before work starts, otherwise `1` when at least one per-item
content or permission failure was counted and `0` when none was; and
per-item isolation holds — every change / file in the sequence is
scanned, and the failure counter equals the exact number of failing
items, so one failure never aborts the rest of the run. -/
theorem C7_exit_codes (cfg : Config) (env : SyncEnv) (tok link : Option String) :
    (cfg.validateOk = false → mainExitCode cfg env tok = 2) ∧
    (cfg.validateOk = true →
       mainExitCode cfg env tok =
         (if 0 < (sync_sharepoint_to_blob cfg env tok).stats.files_failed
             ∨ 0 < (sync_sharepoint_to_blob cfg env tok).stats.permissions_failed
          then 1 else 0)) ∧
    (runDeltaSync cfg env link).stats.files_scanned = (env.fetchDelta link).changes.length ∧
    (runDeltaSync cfg env link).stats.files_failed =
      (env.fetchDelta link).changes.countP (deltaFailed cfg env) ∧
    (runFullSync cfg env).stats.files_scanned = env.spFiles.length ∧
    (runFullSync cfg env).stats.files_failed =
      env.spFiles.countP (fullFileFailed cfg env (list_blobs env.rawBlobs))
        + (if cfg.delete_orphaned_blobs then
             (existingBlobKeys (list_blobs env.rawBlobs)).countP
               (orphanDeleteFailed cfg env (seenBlobNames cfg env.spFiles))
           else 0) ∧
    (runFullSync cfg env).stats.permissions_failed =
      (if cfg.sync_permissions then (fullAllFiles cfg env).countP (permFailed env) else 0) := by
  refine ⟨?_, ?_, ?_, ?_, ?_, ?_, ?_⟩
  · intro h
    simp [mainExitCode, h]
  · intro h
    simp [mainExitCode, h, runStatus]
  · rw [runDeltaSync_eq]
  · rw [runDeltaSync_eq]
  · rw [runFullSync_eq]
  · rw [runFullSync_eq]
  · rw [runFullSync_eq]

/-- C6: an orphaned artifact is deleted if and only if orphan deletion
is enabled: with the flag off the run deletes nothing (no deleted names,
zero deleted count, and the failure counter holds only the per-file
transfer failures — no orphan contributes), in delta mode as well; with
the flag on, a non-dry run deletes an orphaned key exactly when the
delete call succeeds; and an orphan is otherwise untouched — never
uploaded to and never metadata-merged. -/
theorem C6_orphan_gating (cfg : Config) (env : SyncEnv) (link : Option String)
    (b : String) :
    (cfg.delete_orphaned_blobs = false →
       (runFullSync cfg env).deletedNames = [] ∧
       (runFullSync cfg env).stats.files_deleted = 0 ∧
       (runFullSync cfg env).stats.files_failed =
         env.spFiles.countP (fullFileFailed cfg env (list_blobs env.rawBlobs)) ∧
       (runDeltaSync cfg env link).deletedNames = [] ∧
       (runDeltaSync cfg env link).stats.files_deleted = 0) ∧
    (cfg.delete_orphaned_blobs = true → cfg.dry_run = false →
       b ∈ existingBlobKeys (list_blobs env.rawBlobs) →
       b ∉ seenBlobNames cfg env.spFiles →
       (b ∈ (runFullSync cfg env).deletedNames ↔ env.deleteOk b = true)) ∧
    (cfg.delete_orphaned_blobs = true → cfg.dry_run = false →
       ∀ c ∈ (env.fetchDelta link).changes, c.change_type = DeltaChangeType.DELETED →
       env.deleteOk (get_blob_name cfg.blobPfx c.item_path) = true →
       get_blob_name cfg.blobPfx c.item_path ∈ (runDeltaSync cfg env link).deletedNames) ∧
    (b ∉ seenBlobNames cfg env.spFiles →
       b ∉ (runFullSync cfg env).uploadedNames ∧
       b ∉ (runFullSync cfg env).metaUpdatedNames) := by
  refine ⟨?_, ?_, ?_, ?_⟩
  · intro hflag
    refine ⟨?_, ?_, ?_, ?_, ?_⟩
    · rw [runFullSync_eq]
      simp [hflag]
    · rw [runFullSync_eq]
      simp [hflag]
    · rw [runFullSync_eq]
      simp [hflag]
    · rw [runDeltaSync_eq]
      exact deltaDeletedNames_flag_false cfg env _ hflag
    · rw [runDeltaSync_eq]
      simp [List.countP_eq_zero, deltaDeleteOk, hflag]
  · intro hflag hdry hkeys hseen
    rw [runFullSync_eq]
    show b ∈ (if cfg.delete_orphaned_blobs = true ∧ ¬cfg.dry_run = true then
        (existingBlobKeys (list_blobs env.rawBlobs)).filter
          (fun n => !(seenBlobNames cfg env.spFiles).contains n && env.deleteOk n)
      else []) ↔ env.deleteOk b = true
    rw [if_pos ⟨hflag, by simp [hdry]⟩, List.mem_filter]
    have hsc : (seenBlobNames cfg env.spFiles).contains b = false := by
      simpa using hseen
    constructor
    · intro hb
      have hb' := hb.2
      rw [hsc] at hb'
      simpa using hb'
    · intro hok
      exact ⟨hkeys, by simp [hok, hseen]⟩
  · intro hflag hdry c hc hct hok
    rw [runDeltaSync_eq]
    show _ ∈ deltaDeletedNames cfg env (env.fetchDelta link).changes
    rw [deltaDeletedNames, if_neg (by simp [hdry])]
    exact List.mem_filterMap.mpr ⟨c, hc, by simp [hct, hflag, hok]⟩
  · intro hseen
    rw [runFullSync_eq]
    constructor
    · cases hdry : cfg.dry_run with
      | true => simp
      | false =>
          simp only [hdry, Bool.false_eq_true, if_false]
          have := not_mem_map_name_of_not_seen cfg env b
            (env.spFiles.filter (fun f =>
              fullAddOk cfg env (list_blobs env.rawBlobs) f
                || fullUpdateOk cfg env (list_blobs env.rawBlobs) f))
            (fun f hf => (List.mem_filter.mp hf).1) hseen
          simpa [spBlobName] using this
    · by_cases hc : cfg.sync_permissions = true ∧ ¬cfg.dry_run = true
      · simp only [if_pos hc]
        exact not_mem_map_name_of_not_seen cfg env b
          ((fullAllFiles cfg env).filter (permOk env))
          (fun f hf => (List.mem_filter.mp (List.mem_filter.mp hf).1).1) hseen
      · rw [if_neg hc]
        exact List.not_mem_nil b

/-- A size-0 blob whose name has no extension in its final segment is
filtered out of the listing. -/
theorem keepBlob_false_of_zero_extensionless (rb : RawBlob)
    (hsz : rb.size = 0) (hdot : (lastSegment rb.name).contains '.' = false) :
    keepBlob rb = false := by
  have hdot' : '.' ∉ lastSegment rb.name := by simpa using hdot
  simp [keepBlob, hsz, hdot']

/-- A name all of whose raw blobs are filtered out is absent from the
existing-blobs lookup. -/
theorem lookupExisting_eq_none (raw : List RawBlob) (n : String)
    (h : ∀ rb ∈ raw, rb.name = n → keepBlob rb = false) :
    lookupExisting (list_blobs raw) n = none := by
  rw [lookupExisting, List.find?_eq_none]
  intro bf hbf
  rw [List.mem_reverse, list_blobs] at hbf
  obtain ⟨rb, hrb, rfl⟩ := List.mem_map.mp hbf
  obtain ⟨hmem, hkeep⟩ := List.mem_filter.mp hrb
  intro hname
  have hn : rb.name = n := by simpa using hname
  rw [h rb hmem hn] at hkeep
  exact Bool.noConfusion hkeep

/-- C10: `list_blobs` never yields a directory-like blob (name ending in
`'/'`, or size 0 with an extensionless final segment); a name whose raw
blobs are all zero-byte and extensionless is therefore absent from the
existing-artifact lookup, so such a remote file is re-uploaded and
counted as added on a full run, and such a blob name is never a
candidate for orphan deletion. -/
theorem C10_zero_byte_extensionless (cfg : Config) (env : SyncEnv)
    (f : SharePointFile) (n : String) :
    (∀ bf ∈ list_blobs env.rawBlobs,
       bf.name.data.getLast? ≠ some '/' ∧
       (bf.size = 0 → (lastSegment bf.name).contains '.' = true)) ∧
    ((∀ rb ∈ env.rawBlobs, rb.name = n → rb.size = 0) →
     (lastSegment n).contains '.' = false →
       lookupExisting (list_blobs env.rawBlobs) n = none) ∧
    (f ∈ env.spFiles →
     (env.download f.id).isSome = true →
     (∀ rb ∈ env.rawBlobs, rb.name = spBlobName cfg f → rb.size = 0) →
     (lastSegment (spBlobName cfg f)).contains '.' = false →
       fullAddOk cfg env (list_blobs env.rawBlobs) f = true ∧
       0 < (runFullSync cfg env).stats.files_added) ∧
    ((∀ rb ∈ env.rawBlobs, rb.name = n → rb.size = 0) →
     (lastSegment n).contains '.' = false →
       n ∉ (runFullSync cfg env).deletedNames) := by
  refine ⟨?_, ?_, ?_, ?_⟩
  · intro bf hbf
    rw [list_blobs] at hbf
    obtain ⟨rb, hrb, rfl⟩ := List.mem_map.mp hbf
    have hkeep := (List.mem_filter.mp hrb).2
    simp only [keepBlob, Bool.and_eq_true, Bool.not_eq_true'] at hkeep
    constructor
    · show ¬rb.name.data.getLast? = some '/'
      intro hsl
      have h1 := hkeep.1
      rw [hsl] at h1
      simp at h1
    · show rb.size = 0 → (lastSegment rb.name).contains '.' = true
      intro hsz
      have h2 := hkeep.2
      rw [hsz] at h2
      simpa using h2
  · intro hsz hdot
    refine lookupExisting_eq_none env.rawBlobs n (fun rb hrb hn => ?_)
    exact keepBlob_false_of_zero_extensionless rb (hsz rb hrb hn) (hn ▸ hdot)
  · intro hf hdl hsz hdot
    have hnone : lookupExisting (list_blobs env.rawBlobs) (spBlobName cfg f) = none :=
      lookupExisting_eq_none env.rawBlobs _ (fun rb hrb hn =>
        keepBlob_false_of_zero_extensionless rb (hsz rb hrb hn) (hn ▸ hdot))
    have haddok : fullAddOk cfg env (list_blobs env.rawBlobs) f = true := by
      simp [fullAddOk, hnone, hdl]
    refine ⟨haddok, ?_⟩
    rw [runFullSync_eq]
    exact List.countP_pos_iff.mpr ⟨f, hf, haddok⟩
  · intro hsz hdot
    rw [runFullSync_eq]
    by_cases hc : cfg.delete_orphaned_blobs = true ∧ ¬cfg.dry_run = true
    · simp only [if_pos hc]
      intro hb
      have hb' := (List.mem_filter.mp hb).1
      rw [existingBlobKeys, List.mem_dedup] at hb'
      obtain ⟨bf, hbf, hbfn⟩ := List.mem_map.mp hb'
      rw [list_blobs] at hbf
      obtain ⟨rb, hrb, rfl⟩ := List.mem_map.mp hbf
      obtain ⟨hmem, hkeep⟩ := List.mem_filter.mp hrb
      have hn : rb.name = n := hbfn
      rw [keepBlob_false_of_zero_extensionless rb (hsz rb hmem hn) (hn ▸ hdot)] at hkeep
      exact Bool.noConfusion hkeep
    · rw [if_neg hc]
      exact List.not_mem_nil n

/-! ### Concrete witness inputs -/

/-- A permission entry with one valid user GUID for the C3 witness. -/
def c3Good : SharePointPermission :=
  { id := "p1", roles := ["read"], identity_type := "user",
    display_name := "U", identity_id := some "00aa00aa-bb11-cc22-dd33-44ee44ee44ee" }

/-- An entry whose identity ID is a SharePoint-internal value, not a
GUID. -/
def c3Bad : SharePointPermission :=
  { id := "p2", roles := ["read"], identity_type := "user",
    display_name := "V", identity_id := some "sharepoint-internal-7" }

/-- A permission set with one valid user GUID, zero groups and one
malformed ID. -/
def c3FP : FilePermissions :=
  { file_path := "/a", file_id := "i1", permissions := [c3Good, c3Bad] }

/-- An empty permission set. -/
def c3Empty : FilePermissions := { file_path := "/a", file_id := "i1" }

/-- C3 witness. -/
theorem C3_acl_encoding_witness :
    (c3FP.to_metadata "now").lookup METADATA_ACL_USER_IDS =
      some "00aa00aa-bb11-cc22-dd33-44ee44ee44ee" ∧
    (c3FP.to_metadata "now").lookup METADATA_ACL_GROUP_IDS = some PLACEHOLDER_NO_GROUPS ∧
    (c3Empty.to_metadata "now").lookup METADATA_ACL_USER_IDS = some PLACEHOLDER_NO_USERS ∧
    (c3Empty.to_metadata "now").lookup METADATA_ACL_GROUP_IDS = some PLACEHOLDER_NO_GROUPS ∧
    "sharepoint-internal-7" ∉ c3FP.extract_user_ids ∧
    "sharepoint-internal-7" ∉ c3FP.extract_group_ids ∧
    (∃ pd ∈ c3FP.rawProjection, pd.identity_id = some "sharepoint-internal-7") := by
  have h1 := C3_acl_encoding c3FP "now" "00aa00aa-bb11-cc22-dd33-44ee44ee44ee"
    "sharepoint-internal-7"
  have h2 := C3_acl_encoding c3Empty "now" "" ""
  have hset := h1.1 ⟨by decide, by decide⟩
  have hempty := h2.2.1 rfl
  have hbad := h1.2.2.1 ⟨c3Bad, by decide, rfl⟩ (by decide)
  exact ⟨hset.1, hset.2, hempty.1, hempty.2, hbad.1, hbad.2.1, hbad.2.2⟩

/-- C1 witness. -/
theorem C1_amended_staleness_witness :
    should_update c1Blob c1Remote2 (some "etag-2") = true ∧
    should_update c1Blob c1Remote2 (some "etag-1") = true := by
  constructor
  · exact (C1_amended_staleness c1Blob
      [(METADATA_SP_CONTENT_HASH, "etag-1"),
       (METADATA_SP_LAST_MODIFIED, "2024-01-01T00:00:00+00:00")]
      c1Remote2 "etag-1" "etag-2" "2024-01-01T00:00:00+00:00"
      ⟨2024, 1, 1, 0, 0, 0, 0, some 0⟩
      rfl rfl rfl (by decide) (by decide)).1 (by decide)
  · exact ((C1_amended_staleness c1Blob
      [(METADATA_SP_CONTENT_HASH, "etag-1"),
       (METADATA_SP_LAST_MODIFIED, "2024-01-01T00:00:00+00:00")]
      c1Remote2 "etag-1" "etag-1" "2024-01-01T00:00:00+00:00"
      ⟨2024, 1, 1, 0, 0, 0, 0, some 0⟩
      rfl rfl rfl (by decide) (by decide)).2
      rfl rfl (by decide) (by decide)).mpr (by decide)

/-- A minimal valid configuration for the C5 witness. -/
def c5Cfg : Config :=
  { sharepoint_site_url := "https://contoso.sharepoint.com/sites/S",
    storage_account_name := "acct", container_name := "cont" }

/-- An environment whose initial delta crawl returns a fresh token. -/
def c5Env : SyncEnv :=
  { fetchDelta := fun _ =>
      { changes := [],
        delta_token := "https://graph.microsoft.com/v1.0/drives/d/root/delta?token=abc" },
    spFiles := [], rawBlobs := [],
    download := fun _ => none, deleteOk := fun _ => false,
    permFetch := fun _ => none }

/-- C5 witness. -/
theorem C5_corrupt_token_fallback_witness :
    sync_sharepoint_to_blob c5Cfg c5Env (some "corrupted-token") =
      sync_sharepoint_to_blob c5Cfg c5Env none ∧
    (sync_sharepoint_to_blob c5Cfg c5Env (some "corrupted-token")).stats.sync_mode =
      "delta-initial" ∧
    (sync_sharepoint_to_blob c5Cfg c5Env (some "corrupted-token")).savedToken =
      some "https://graph.microsoft.com/v1.0/drives/d/root/delta?token=abc" := by
  have h := C5_corrupt_token_fallback c5Cfg c5Env "corrupted-token" rfl (by decide)
  exact ⟨h.1, h.2.1, h.2.2 (by decide) rfl⟩

/-- The remote file of the C6/C7 witness environment. -/
def c6File : SharePointFile :=
  { id := "i1", name := "a.txt", path := "/a.txt", size := 1,
    last_modified := { year := 2024, month := 1, day := 1 } }

/-- An artifact with no remote counterpart. -/
def c6Orphan : RawBlob :=
  { name := "old.txt", size := 5,
    last_modified := { year := 2024, month := 1, day := 1 } }

/-- An environment with one remote file, one orphaned blob, and a delta
feed reporting one deletion. -/
def c6EnvBase : SyncEnv :=
  { fetchDelta := fun _ =>
      { changes := [{ change_type := DeltaChangeType.DELETED, item_id := "gone",
                      item_path := "/old.txt" }],
        delta_token := "" },
    spFiles := [c6File],
    rawBlobs := [c6Orphan],
    download := fun _ => some [1],
    deleteOk := fun _ => true,
    permFetch := fun _ => none }

/-- A configuration with orphan deletion disabled. -/
def c6CfgOff : Config :=
  { sharepoint_site_url := "u", storage_account_name := "a",
    container_name := "c", delete_orphaned_blobs := false }

/-- A configuration with orphan deletion enabled. -/
def c6CfgOn : Config :=
  { sharepoint_site_url := "u", storage_account_name := "a",
    container_name := "c", delete_orphaned_blobs := true }

/-- C6 witness. -/
theorem C6_orphan_gating_witness :
    (runFullSync c6CfgOff c6EnvBase).deletedNames = [] ∧
    (runFullSync c6CfgOff c6EnvBase).stats.files_deleted = 0 ∧
    ("old.txt" ∈ (runFullSync c6CfgOn c6EnvBase).deletedNames ↔
       c6EnvBase.deleteOk "old.txt" = true) ∧
    "old.txt" ∈ (runDeltaSync c6CfgOn c6EnvBase none).deletedNames ∧
    "old.txt" ∉ (runFullSync c6CfgOff c6EnvBase).uploadedNames := by
  have hoff := C6_orphan_gating c6CfgOff c6EnvBase none "old.txt"
  have hon := C6_orphan_gating c6CfgOn c6EnvBase none "old.txt"
  refine ⟨(hoff.1 rfl).1, (hoff.1 rfl).2.1, ?_, ?_, ?_⟩
  · exact hon.2.1 rfl rfl (by decide) (by decide)
  · exact hon.2.2.1 rfl rfl
      { change_type := DeltaChangeType.DELETED, item_id := "gone",
        item_path := "/old.txt" }
      (by decide) rfl rfl
  · exact (hoff.2.2.2 (by decide)).1

/-- A configuration that fails validation (empty site URL). -/
def c7BadCfg : Config :=
  { sharepoint_site_url := "", storage_account_name := "a",
    container_name := "c" }

/-- C7 witness. -/
theorem C7_exit_codes_witness :
    mainExitCode c7BadCfg c6EnvBase none = 2 ∧
    mainExitCode c6CfgOff c6EnvBase none =
      (if 0 < (sync_sharepoint_to_blob c6CfgOff c6EnvBase none).stats.files_failed
          ∨ 0 < (sync_sharepoint_to_blob c6CfgOff c6EnvBase none).stats.permissions_failed
       then 1 else 0) ∧
    (runDeltaSync c6CfgOff c6EnvBase none).stats.files_scanned =
      (c6EnvBase.fetchDelta none).changes.length := by
  have hbad := C7_exit_codes c7BadCfg c6EnvBase none none
  have hok := C7_exit_codes c6CfgOff c6EnvBase none none
  exact ⟨hbad.1 rfl, hok.2.1 rfl, hok.2.2.1⟩

/-- A zero-byte extensionless remote file for the C10 witness. -/
def c10File : SharePointFile :=
  { id := "i1", name := "README", path := "/README", size := 0,
    last_modified := { year := 2024, month := 1, day := 1 } }

/-- The zero-byte extensionless blob a previous run left behind. -/
def c10Blob : RawBlob :=
  { name := "README", size := 0,
    last_modified := { year := 2024, month := 1, day := 1 } }

/-- An environment where the container holds exactly that blob. -/
def c10Env : SyncEnv :=
  { fetchDelta := fun _ => ({} : DeltaResult),
    spFiles := [c10File],
    rawBlobs := [c10Blob],
    download := fun _ => some [],
    deleteOk := fun _ => true,
    permFetch := fun _ => none }

/-- A configuration with orphan deletion enabled (the dangerous case for
a blob wrongly treated as an orphan). -/
def c10Cfg : Config :=
  { sharepoint_site_url := "u", storage_account_name := "a",
    container_name := "c", delete_orphaned_blobs := true }

/-- C10 witness. -/
theorem C10_zero_byte_extensionless_witness :
    lookupExisting (list_blobs c10Env.rawBlobs) "README" = none ∧
    fullAddOk c10Cfg c10Env (list_blobs c10Env.rawBlobs) c10File = true ∧
    0 < (runFullSync c10Cfg c10Env).stats.files_added ∧
    "README" ∉ (runFullSync c10Cfg c10Env).deletedNames := by
  have h := C10_zero_byte_extensionless c10Cfg c10Env c10File "README"
  have hadd := h.2.2.1 (by decide) rfl (by decide) (by decide)
  exact ⟨h.2.1 (by decide) (by decide), hadd.1, hadd.2,
    h.2.2.2 (by decide) (by decide)⟩

end SPSync
